import Mathlib

/-!
# CHIP-8 interpreter (`src/main.c`): shallow embedding and verified properties

The C program keeps one global `MachineState` of type `State`; every opcode
routine mutates it.  Here the state is an explicit value and every routine is
a function on it.

Conventions of the embedding:

* `unsigned char`, `unsigned short` and `unsigned long long` values are
  natural numbers; every store into such an object is reduced modulo
  `2^8`, `2^16`, `2^64` exactly where the C assignment truncates.
* arrays are functions from the index to the element.  The union
  `DisplayBuffer` (`Low[32]` overlaid on `High[2][64]`) is one flat array of
  128 words: `Low[i]` is word `i`, `High[h][i]` is word `64 * h + i`.
* register arguments of the opcode routines are the nibbles
  `(opcode & 0xF00) >> 8` and `(opcode & 0xF0) >> 4` produced by the decoder.
* a routine whose array index or shift amount depends on run-time data
  returns `Option State`; `none` stands for undefined behaviour of the C
  program (index outside the array, shift amount outside `0..63`).
* the routines that never stop at an array bound and whose effect on the
  registers does not depend on the cell they touch are followed past the
  bound: `call` and `subroutineReturn` index `Stack` with whatever the `int`
  `StackCounter` holds, and the loops of `savevX` and `restorevX` go through
  `Memory[I + i]` for every `I`.  A cell outside the array stands for the
  storage such an index addresses.
* one pass through the tick loop of `main` is `step`; its `Outcome` is a new
  state, the exit status `main` returns, or undefined behaviour.  The host
  enters through arguments: the value of `rand()` and what `IsKeyDown`
  reports for the sixteen keys.
-/

namespace Chip8

/-- The `State` struct of `src/main.c`, field for field.  `Stack` is indexed by
the `int` `StackCounter`, which no routine checks against the array bounds:
the cells 0..31 are the array `Stack[32]`, a cell outside them stands for the
storage an out-of-range index addresses. -/
structure State where
  ProgramCounter : Nat
  Stack : Int → Nat
  StackCounter : Int
  DisplayBuffer : Nat → Nat
  DisplayIsHigh : Nat
  UsingCompatibility : Nat
  Time : Nat
  Tone : Nat
  I : Nat
  Keys : Nat
  KeyMask : Nat
  WaitingForKeyPress : Nat
  V : Nat → Nat
  Memory : Nat → Nat

/-- Array store `a[i] = v`. -/
def write (a : Nat → Nat) (i v : Nat) : Nat → Nat :=
  fun j => if j = i then v else a j

/-- Array store `Stack[i] = v`, the index being an `int`. -/
def writeStack (a : Int → Nat) (i : Int) (v : Nat) : Int → Nat :=
  fun j => if j = i then v else a j

/-- Word index of `DisplayBuffer.Low[i]` in the flat display storage. -/
def lowIdx (i : Nat) : Nat := i

/-- Word index of `DisplayBuffer.High[h][i]` in the flat display storage. -/
def highIdx (h i : Nat) : Nat := 64 * h + i

/-- Every `unsigned char` register holds a byte. -/
def RegsAreBytes (s : State) : Prop := ∀ r, s.V r < 256

/-- Every `unsigned char` memory cell holds a byte. -/
def MemoryIsBytes (s : State) : Prop := ∀ a, s.Memory a < 256

/-- Every `unsigned long long` display word is below `2^64`. -/
def DisplayIsWords (s : State) : Prop := ∀ k, s.DisplayBuffer k < 2 ^ 64

/-- `for (int i = 0; i < n; i++) body(i)` where the body may hit undefined
behaviour: the first `n` iterations, in order. -/
def forLoop (body : Nat → State → Option State) : Nat → State → Option State
  | 0, s => some s
  | n + 1, s => (forLoop body n s).bind (body n)

/-- `for (int i = 0; i < n; i++) body(i)` for a body that is always defined. -/
def forLoopT (body : Nat → State → State) : Nat → State → State
  | 0, s => s
  | n + 1, s => body n (forLoopT body n s)

/-! ## Register and ALU routines -/

/-- `addvXValue` (0x7XKK): `V[registerX] += value`. -/
def addvXValue (s : State) (registerX value : Nat) : State :=
  { s with V := write s.V registerX ((s.V registerX + value) % 256) }

/-- `addvXvY` (0x8XY4): `V[registerX] += V[registerY]`. -/
def addvXvY (s : State) (registerX registerY : Nat) : State :=
  { s with V := write s.V registerX ((s.V registerX + s.V registerY) % 256) }

/-- `subvXvY` (0x8XY5): first `V[15] = V[registerX] < V[registerY]`, then
`V[registerX] -= V[registerY]` on the updated register file. -/
def subvXvY (s : State) (registerX registerY : Nat) : State :=
  let s1 : State :=
    { s with V := write s.V 15 (if s.V registerX < s.V registerY then 1 else 0) }
  { s1 with
    V := write s1.V registerX
      (Int.toNat (((s1.V registerX : Int) - (s1.V registerY : Int)) % 256)) }

/-- `shrvX` (0x8X06): first `V[15] = V[registerX] & 1`, then
`V[registerX] >>= 1`. -/
def shrvX (s : State) (registerX : Nat) : State :=
  let s1 : State := { s with V := write s.V 15 ((s.V registerX &&& 1) % 256) }
  { s1 with V := write s1.V registerX ((s1.V registerX >>> 1) % 256) }

/-- `shlvX` (0x8X0E): first `V[15] = V[registerX] & 0x80`, then
`V[registerX] <<= 1`. -/
def shlvX (s : State) (registerX : Nat) : State :=
  let s1 : State := { s with V := write s.V 15 ((s.V registerX &&& 0x80) % 256) }
  { s1 with V := write s1.V registerX ((s1.V registerX <<< 1) % 256) }

/-! ## Sprite drawing, 8 pixels wide (0xDXYN) -/

/-- One iteration of the low-resolution loop of `drawvXvYRows`:
`line = (unsigned long long)Memory[I + i] << (56 - x)`, the collision test
on `Low[y + i]`, then `Low[y + i] ^= line`. -/
def drawRowLow (x y i : Nat) (s : State) : Option State :=
  if s.I + i < 4096 ∧ y + i < 32 ∧ x ≤ 56 then
    let line := (s.Memory (s.I + i) <<< (56 - x)) % 2 ^ 64
    let s1 : State :=
      { s with
        V := write s.V 15 (if s.DisplayBuffer (lowIdx (y + i)) &&& line ≠ 0 then 1 else 0) }
    some { s1 with
      DisplayBuffer := write s1.DisplayBuffer (lowIdx (y + i))
        ((s1.DisplayBuffer (lowIdx (y + i)) ^^^ line) % 2 ^ 64) }
  else none

/-- One iteration of the high-resolution loop of `drawvXvYRows`:
`firstHalf = ((unsigned long long)Memory[I + i] << 56) >> x`,
`secondHalf = (unsigned long long)Memory[I + i] << (120 - x)`, the collision
test on `High[0][y + i]` and `High[1][i]`, then both halves are XORed into
`High[0][y + i]`. -/
def drawRowHigh (x y i : Nat) (s : State) : Option State :=
  if s.I + i < 4096 ∧ y + i < 64 ∧ x < 64 ∧ 57 ≤ x ∧ x ≤ 120 then
    let firstHalf := ((s.Memory (s.I + i) <<< 56) % 2 ^ 64) >>> x
    let secondHalf := (s.Memory (s.I + i) <<< (120 - x)) % 2 ^ 64
    let s1 : State :=
      { s with
        V := write s.V 15
          (if s.DisplayBuffer (highIdx 0 (y + i)) &&& firstHalf ≠ 0
              ∨ s.DisplayBuffer (highIdx 1 i) &&& secondHalf ≠ 0 then 1 else 0) }
    let s2 : State :=
      { s1 with
        DisplayBuffer := write s1.DisplayBuffer (highIdx 0 (y + i))
          ((s1.DisplayBuffer (highIdx 0 (y + i)) ^^^ firstHalf) % 2 ^ 64) }
    some { s2 with
      DisplayBuffer := write s2.DisplayBuffer (highIdx 0 (y + i))
        ((s2.DisplayBuffer (highIdx 0 (y + i)) ^^^ secondHalf) % 2 ^ 64) }
  else none

/-- `drawvXvYRows` (0xDXYN): `x = V[registerX]`, `y = V[registerY]` are read
once; the high-resolution loop runs `for (i = 0; i < y; i++)`, the
low-resolution loop `for (i = 0; i < rows; i++)`. -/
def drawvXvYRows (s : State) (registerX registerY rows : Nat) : Option State :=
  let x := s.V registerX
  let y := s.V registerY
  if s.DisplayIsHigh ≠ 0 then forLoop (drawRowHigh x y) y s
  else forLoop (drawRowLow x y) rows s

/-! ## Horizontal scrolling (0x00FB, 0x00FC) -/

/-- Body of the high-resolution loop of `scrollRight`:
`High[1][i] >>= 4; High[1][i] |= (High[0][i] & 0xf) << 60; High[0][i] >>= 4`. -/
def scrollRightHighRow (i : Nat) (s : State) : State :=
  let s1 : State :=
    { s with
      DisplayBuffer := write s.DisplayBuffer (highIdx 1 i)
        ((s.DisplayBuffer (highIdx 1 i) >>> 4) % 2 ^ 64) }
  let s2 : State :=
    { s1 with
      DisplayBuffer := write s1.DisplayBuffer (highIdx 1 i)
        ((s1.DisplayBuffer (highIdx 1 i)
          ||| ((s1.DisplayBuffer (highIdx 0 i) &&& 0xf) <<< 60) % 2 ^ 64) % 2 ^ 64) }
  { s2 with
    DisplayBuffer := write s2.DisplayBuffer (highIdx 0 i)
      ((s2.DisplayBuffer (highIdx 0 i) >>> 4) % 2 ^ 64) }

/-- Body of the low-resolution loop of `scrollRight`: `Low[i] >>= 4`. -/
def scrollRightLowRow (i : Nat) (s : State) : State :=
  { s with
    DisplayBuffer := write s.DisplayBuffer (lowIdx i)
      ((s.DisplayBuffer (lowIdx i) >>> 4) % 2 ^ 64) }

/-- `scrollRight` (0x00FB). -/
def scrollRight (s : State) : State :=
  if s.DisplayIsHigh ≠ 0 then forLoopT scrollRightHighRow 64 s
  else forLoopT scrollRightLowRow 32 s

/-- Body of the high-resolution loop of `scrollLeft`:
`High[0][i] <<= 4;`
`High[0][i] |= (High[0][i] & ((unsigned long long)0xf << 60)) >> 60;`
`High[1][i] <<= 4`. -/
def scrollLeftHighRow (i : Nat) (s : State) : State :=
  let s1 : State :=
    { s with
      DisplayBuffer := write s.DisplayBuffer (highIdx 0 i)
        ((s.DisplayBuffer (highIdx 0 i) <<< 4) % 2 ^ 64) }
  let s2 : State :=
    { s1 with
      DisplayBuffer := write s1.DisplayBuffer (highIdx 0 i)
        ((s1.DisplayBuffer (highIdx 0 i)
          ||| (s1.DisplayBuffer (highIdx 0 i) &&& (0xf <<< 60) % 2 ^ 64) >>> 60) % 2 ^ 64) }
  { s2 with
    DisplayBuffer := write s2.DisplayBuffer (highIdx 1 i)
      ((s2.DisplayBuffer (highIdx 1 i) <<< 4) % 2 ^ 64) }

/-- Body of the low-resolution loop of `scrollLeft`: `Low[i] <<= 4`. -/
def scrollLeftLowRow (i : Nat) (s : State) : State :=
  { s with
    DisplayBuffer := write s.DisplayBuffer (lowIdx i)
      ((s.DisplayBuffer (lowIdx i) <<< 4) % 2 ^ 64) }

/-- `scrollLeft` (0x00FC). -/
def scrollLeft (s : State) : State :=
  if s.DisplayIsHigh ≠ 0 then forLoopT scrollLeftHighRow 64 s
  else forLoopT scrollLeftLowRow 32 s

/-! ## Control flow routines -/

/-- `clearScreen` (0x00E0): `memset` of the whole `High` array, all 128 words
of the display storage. -/
def clearScreen (s : State) : State :=
  { s with DisplayBuffer := fun k => if k < 128 then 0 else s.DisplayBuffer k }

/-- `subroutineReturn` (0x00EE): `ProgramCounter = Stack[StackCounter--]`.
The routine performs no bounds check: with an empty stack
(`StackCounter = -1`) it reads the cell before the array and goes on with
`StackCounter = -2`.  Only the overflow of the `int` counter itself is left
without a result. -/
def subroutineReturn (s : State) : Option State :=
  if -(2 ^ 31) ≤ s.StackCounter - 1 then
    some { s with
      ProgramCounter := s.Stack s.StackCounter
      StackCounter := s.StackCounter - 1 }
  else none

/-- `compatability` (0x00FA): `UsingCompatibility = 1`. -/
def compatability (s : State) : State :=
  { s with UsingCompatibility := 1 }

/-- `jump` (0x0NNN): `ProgramCounter = address - 2`, truncated to 16 bits. -/
def jump (s : State) (address : Nat) : State :=
  { s with ProgramCounter := Int.toNat (((address : Int) - 2) % 65536) }

/-- `jumpv0` (0xBNNN): `ProgramCounter = address + V[0] - 2`, truncated to
16 bits. -/
def jumpv0 (s : State) (address : Nat) : State :=
  { s with ProgramCounter := Int.toNat (((address : Int) + (s.V 0 : Int) - 2) % 65536) }

/-- `call` (0x1NNN): `Stack[++StackCounter] = ProgramCounter`, then
`ProgramCounter = address - 2`.  The routine performs no bounds check: with 32
addresses stacked (`StackCounter = 31`) it stores into the cell behind the
array and goes on with `StackCounter = 32`.  Only the overflow of the `int`
counter itself is left without a result. -/
def call (s : State) (address : Nat) : Option State :=
  if s.StackCounter + 1 < 2 ^ 31 then
    some { s with
      Stack := writeStack s.Stack (s.StackCounter + 1) s.ProgramCounter
      StackCounter := s.StackCounter + 1
      ProgramCounter := Int.toNat (((address : Int) - 2) % 65536) }
  else none

/-- The statement `ProgramCounter += 2` on the `unsigned short` counter. -/
def skipNext (s : State) : State :=
  { s with ProgramCounter := (s.ProgramCounter + 2) % 65536 }

/-- `skipEqvXValue` (0x3XYY): skip when `V[registerX] == value`. -/
def skipEqvXValue (s : State) (registerX value : Nat) : State :=
  if s.V registerX = value then skipNext s else s

/-- `skipEqvXvY` (0x3XY0): skip when `V[registerX] == V[registerY]`. -/
def skipEqvXvY (s : State) (registerX registerY : Nat) : State :=
  if s.V registerX = s.V registerY then skipNext s else s

/-- `skipvXKey` (0xEX9E): skip when `(1 << (V[registerX] & 0xF)) & Keys` is
non-zero. -/
def skipvXKey (s : State) (registerX : Nat) : State :=
  if (1 <<< (s.V registerX &&& 0xF)) &&& s.Keys ≠ 0 then skipNext s else s

/-- `skipNevXValue` (0x4XKK): skip when `V[registerX] != value`. -/
def skipNevXValue (s : State) (registerX value : Nat) : State :=
  if s.V registerX ≠ value then skipNext s else s

/-- `skipNevXvY` (0x9XY0): skip when `V[registerX] != V[registerY]`. -/
def skipNevXvY (s : State) (registerX registerY : Nat) : State :=
  if s.V registerX ≠ s.V registerY then skipNext s else s

/-- `skipNevXKey` (0xEXA1): skip when `(1 << (V[registerX] & 0xF)) & Keys` is
zero. -/
def skipNevXKey (s : State) (registerX : Nat) : State :=
  if ¬ ((1 <<< (s.V registerX &&& 0xF)) &&& s.Keys ≠ 0) then skipNext s else s

/-! ## Load routines -/

/-- `loadvXValue` (0x6XKK): `V[registerX] = value`. -/
def loadvXValue (s : State) (registerX value : Nat) : State :=
  { s with V := write s.V registerX value }

/-- The `while` loop of `loadvXKey`:
`while ((Keys & KeyMask) & (1 << lowestKey)) ++lowestKey;`
started at `lowestKey = k` with `room` further values of `lowestKey` for
which the `int` shift `1 << lowestKey` is defined (`lowestKey <= 30`).
The result is the value of `lowestKey` at loop exit, `none` when the loop
reaches an undefined shift. -/
def keyScan (m : Nat) : Nat → Nat → Option Nat
  | 0, _ => none
  | room + 1, k => if m &&& (1 <<< k) ≠ 0 then keyScan m room (k + 1) else some k

/-- `loadvXKey` (0xFX0A): with `(Keys & KeyMask) == 0` only
`WaitingForKeyPress = 1`; otherwise `WaitingForKeyPress = 0`, the `while`
loop from `lowestKey = 0`, `V[registerX] = lowestKey` and
`KeyMask &= ~(1 << lowestKey)` (complement of a 32-bit `int`, result
truncated to the `unsigned short`). -/
def loadvXKey (s : State) (registerX : Nat) : Option State :=
  if s.Keys &&& s.KeyMask = 0 then
    some { s with WaitingForKeyPress := 1 }
  else
    match keyScan (s.Keys &&& s.KeyMask) 31 0 with
    | none => none
    | some lowestKey =>
      some { s with
        WaitingForKeyPress := 0
        V := write s.V registerX (lowestKey % 256)
        KeyMask := (s.KeyMask &&& (0xFFFFFFFF ^^^ (1 <<< lowestKey))) % 65536 }

/-- `loadvXvY` (0x8XY0): `V[registerX] = V[registerY]`. -/
def loadvXvY (s : State) (registerX registerY : Nat) : State :=
  { s with V := write s.V registerX (s.V registerY) }

/-- `loadvXTime` (0xFX07): `V[registerX] = Time`. -/
def loadvXTime (s : State) (registerX : Nat) : State :=
  { s with V := write s.V registerX s.Time }

/-- `loadTimevX` (0xFX15): `Time = V[registerX]`. -/
def loadTimevX (s : State) (registerX : Nat) : State :=
  { s with Time := s.V registerX }

/-- `loadTonevX` (0xFX18): `Tone = V[registerX]`. -/
def loadTonevX (s : State) (registerX : Nat) : State :=
  { s with Tone := s.V registerX }

/-- `loadI` (0xANNN): `I = address`. -/
def loadI (s : State) (address : Nat) : State :=
  { s with I := address }

/-! ## Further arithmetic and logic routines -/

/-- `addIvX` (0xFX1E): `I += V[registerX]` on the `unsigned short`. -/
def addIvX (s : State) (registerX : Nat) : State :=
  { s with I := (s.I + s.V registerX) % 65536 }

/-- `orvXvY` (0x8XY1): `V[registerX] |= V[registerY]`. -/
def orvXvY (s : State) (registerX registerY : Nat) : State :=
  { s with V := write s.V registerX ((s.V registerX ||| s.V registerY) % 256) }

/-- `andvXvY` (0x8XY2): `V[registerX] &= V[registerY]`. -/
def andvXvY (s : State) (registerX registerY : Nat) : State :=
  { s with V := write s.V registerX ((s.V registerX &&& s.V registerY) % 256) }

/-- `xorvXvY` (0x8XY3): `V[registerX] ^= V[registerY]`. -/
def xorvXvY (s : State) (registerX registerY : Nat) : State :=
  { s with V := write s.V registerX ((s.V registerX ^^^ s.V registerY) % 256) }

/-- `difvXvY` (0x8XY7): first `V[15] = V[registerX] > V[registerY]`, then
`V[registerX] = V[registerY] - V[registerX]` on the updated register file. -/
def difvXvY (s : State) (registerX registerY : Nat) : State :=
  let s1 : State :=
    { s with V := write s.V 15 (if s.V registerX > s.V registerY then 1 else 0) }
  { s1 with
    V := write s1.V registerX
      (Int.toNat (((s1.V registerY : Int) - (s1.V registerX : Int)) % 256)) }

/-- `rndvXMask` (0xCXKK): `V[registerX] = (unsigned char)rand() & mask`; the
value returned by `rand()` is the argument `rnd`. -/
def rndvXMask (rnd : Nat) (s : State) (registerX mask : Nat) : State :=
  { s with V := write s.V registerX ((rnd % 256) &&& mask) }

/-! ## Index register routines -/

/-- `hexvX` (0xFX29): `I = (V[registerX] & 0xF) << 4`. -/
def hexvX (s : State) (registerX : Nat) : State :=
  { s with I := ((s.V registerX &&& 0xF) <<< 4) % 65536 }

/-- `bcdvX` (0xFX33): `Memory[I] = V[X] / 100`, `Memory[I+1] = (V[X] % 100) / 10`,
`Memory[I+2] = V[X] % 10`. -/
def bcdvX (s : State) (registerX : Nat) : Option State :=
  if s.I + 2 < 4096 then
    let s1 : State := { s with Memory := write s.Memory s.I ((s.V registerX / 100) % 256) }
    let s2 : State :=
      { s1 with Memory := write s1.Memory (s1.I + 1) ((s1.V registerX % 100 / 10) % 256) }
    some { s2 with Memory := write s2.Memory (s2.I + 2) ((s2.V registerX % 10) % 256) }
  else none

/-- Body of the loop of `savevX`: `Memory[I + i] = V[i]`.  The loop checks no
bound on `I + i`: a cell of `Memory` from 4096 on stands for the storage behind
the array, and the routine goes on to its statement on `I`. -/
def saveRow (i : Nat) (s : State) : Option State :=
  if i < 16 then
    some { s with Memory := write s.Memory (s.I + i) (s.V i) }
  else none

/-- Body of the loop of `restorevX`: `V[i] = Memory[I + i]`.  The loop checks
no bound on `I + i`, as in `saveRow`. -/
def restoreRow (i : Nat) (s : State) : Option State :=
  if i < 16 then
    some { s with V := write s.V i (s.Memory (s.I + i)) }
  else none

/-- The statement shared by `savevX` and `restorevX`:
`if (!UsingCompatibility) I += registerX + 1` on the `unsigned short`. -/
def advanceI (s : State) (registerX : Nat) : State :=
  if s.UsingCompatibility = 0 then { s with I := (s.I + (registerX + 1)) % 65536 } else s

/-- `savevX` (0xFX55): `for (i = 0; i <= registerX; i++) Memory[I + i] = V[i]`,
then the conditional advance of `I`. -/
def savevX (s : State) (registerX : Nat) : Option State :=
  (forLoop saveRow (registerX + 1) s).map (fun t => advanceI t registerX)

/-- `restorevX` (0xFX65): `for (i = 0; i <= registerX; i++) V[i] = Memory[I + i]`,
then the conditional advance of `I`. -/
def restorevX (s : State) (registerX : Nat) : Option State :=
  (forLoop restoreRow (registerX + 1) s).map (fun t => advanceI t registerX)

/-! ## Vertical scrolling and resolution (0x00Cn, 0x00FE, 0x00FF) -/

/-- Body of the high-resolution copy loop of `scrollDownN`:
`High[0][i+n] = High[0][i]; High[1][i+n] = High[1][i]`. -/
def scrollDownHighRow (n i : Nat) (s : State) : State :=
  let s1 : State :=
    { s with
      DisplayBuffer := write s.DisplayBuffer (highIdx 0 (i + n)) (s.DisplayBuffer (highIdx 0 i)) }
  { s1 with
    DisplayBuffer := write s1.DisplayBuffer (highIdx 1 (i + n)) (s1.DisplayBuffer (highIdx 1 i)) }

/-- Body of the low-resolution copy loop of `scrollDownN`: `Low[i+n] = Low[i]`. -/
def scrollDownLowRow (n i : Nat) (s : State) : State :=
  { s with
    DisplayBuffer := write s.DisplayBuffer (lowIdx (i + n)) (s.DisplayBuffer (lowIdx i)) }

/-- The call `memset(DisplayBuffer.High, 0, words * sizeof(unsigned long long))`
(the same address as `DisplayBuffer.Low`): the first `words` words of the
display storage become zero. -/
def zeroWords (words : Nat) (s : State) : State :=
  { s with DisplayBuffer := fun k => if k < words then 0 else s.DisplayBuffer k }

/-- `scrollDownN` (0x00Cn), `n` the nibble `opcode & 0xF`.  High resolution:
the copy loop `for (i = 0; i < 64 - n; i++)`, then `memset` of `n * 2` words
from the start of `High`.  Low resolution: the copy loop
`for (i = 0; i < 32 - n; i++)`, then `memset` of `n` words from the start of
`Low`. -/
def scrollDownN (s : State) (n : Nat) : State :=
  if s.DisplayIsHigh ≠ 0 then zeroWords (n * 2) (forLoopT (scrollDownHighRow n) (64 - n) s)
  else zeroWords n (forLoopT (scrollDownLowRow n) (32 - n) s)

/-- `displayBufferLow` (0x00FE): `DisplayIsHigh = 0`. -/
def displayBufferLow (s : State) : State :=
  { s with DisplayIsHigh := 0 }

/-- `displayBufferHigh` (0x00FF): `DisplayIsHigh = 1`. -/
def displayBufferHigh (s : State) : State :=
  { s with DisplayIsHigh := 1 }

/-! ## Sprite drawing, 16 pixels wide (0xDXY0) -/

/-- One iteration of the high-resolution loop of `drawvXvY`.
`firstHalf` shifts an `unsigned long long`; `secondHalf` is computed in
`int`: `((Memory[I + 2*i] << 8) | Memory[I + 2*i + 1]) << (111 - x)`, defined only
for a shift amount in `0..31` and a result below `2^31`. -/
def xdrawRowHigh (x y i : Nat) (s : State) : Option State :=
  let pair := (s.Memory (s.I + 2 * i) <<< 8) ||| s.Memory (s.I + 2 * i + 1)
  if s.I + 2 * i + 1 < 4096 ∧ y + i < 64 ∧ x < 64 ∧ x ≤ 111 ∧ 111 - x < 32
      ∧ pair <<< (111 - x) < 2 ^ 31 then
    let firstHalf := (((pair % 2 ^ 64) <<< 48) % 2 ^ 64) >>> x
    let secondHalf := pair <<< (111 - x)
    let s1 : State :=
      { s with
        V := write s.V 15
          (if s.DisplayBuffer (highIdx 0 (y + i)) &&& firstHalf ≠ 0
              ∨ s.DisplayBuffer (highIdx 1 (y + i)) &&& secondHalf ≠ 0 then 1 else 0) }
    let s2 : State :=
      { s1 with
        DisplayBuffer := write s1.DisplayBuffer (highIdx 0 (y + i))
          ((s1.DisplayBuffer (highIdx 0 (y + i)) ^^^ firstHalf) % 2 ^ 64) }
    some { s2 with
      DisplayBuffer := write s2.DisplayBuffer (highIdx 1 (y + i))
        ((s2.DisplayBuffer (highIdx 1 (y + i)) ^^^ secondHalf) % 2 ^ 64) }
  else none

/-- One iteration of the low-resolution loop of `drawvXvY`.  By C operator
precedence the line is
`(Memory[I + 2*i] << 8) | (Memory[I + 2*i + 1] << (56 - x))` on
`unsigned long long`. -/
def xdrawRowLow (x y i : Nat) (s : State) : Option State :=
  if s.I + 2 * i + 1 < 4096 ∧ y + i < 32 ∧ x ≤ 56 then
    let line := ((s.Memory (s.I + 2 * i) <<< 8) % 2 ^ 64)
      ||| ((s.Memory (s.I + 2 * i + 1) <<< (56 - x)) % 2 ^ 64)
    let s1 : State :=
      { s with
        V := write s.V 15 (if s.DisplayBuffer (lowIdx (y + i)) &&& line ≠ 0 then 1 else 0) }
    some { s1 with
      DisplayBuffer := write s1.DisplayBuffer (lowIdx (y + i))
        ((s1.DisplayBuffer (lowIdx (y + i)) ^^^ line) % 2 ^ 64) }
  else none

/-- `drawvXvY` (0xDXY0): 16 iterations of the row loop of the current
resolution. -/
def drawvXvY (s : State) (registerX registerY : Nat) : Option State :=
  let x := s.V registerX
  let y := s.V registerY
  if s.DisplayIsHigh ≠ 0 then forLoop (xdrawRowHigh x y) 16 s
  else forLoop (xdrawRowLow x y) 16 s

/-! ## The execution loop of `main` -/

/-- `programExitValue` (0x001X): the value `main` returns. -/
def programExitValue (value : Nat) : Nat := value

/-- `programExit` (0x00FD): `main` returns 0. -/
def programExit : Nat := 0

/-- What one pass through the body of the tick loop can lead to: the loop
goes on with a new machine state, `main` returns with an exit status, or the
C program has undefined behaviour. -/
inductive Outcome where
  | running (s : State)
  | exited (status : Nat)
  | undefined

/-- A routine that may be undefined, as an outcome of the tick. -/
def Outcome.ofOption : Option State → Outcome
  | some s => Outcome.running s
  | none => Outcome.undefined

/-- The machine state of an outcome that lets the tick loop go on. -/
def Outcome.state : Outcome → Option State
  | Outcome.running s => some s
  | Outcome.exited _ => none
  | Outcome.undefined => none

/-- The register argument `(opcode & 0xF00) >> 8`. -/
def opX (opcode : Nat) : Nat := (opcode &&& 0xF00) >>> 8

/-- The register argument `(opcode & 0xF0) >> 4`. -/
def opY (opcode : Nat) : Nat := (opcode &&& 0xF0) >>> 4

/-- The fetch `(Memory[ProgramCounter] << 8) | Memory[ProgramCounter + 1]`
into an `unsigned short`. -/
def fetch (s : State) : Option Nat :=
  if s.ProgramCounter + 1 < 4096 then
    some (((s.Memory s.ProgramCounter <<< 8) ||| s.Memory (s.ProgramCounter + 1)) % 65536)
  else none

/-- The statements under `case 0xE000:` of the opcode switch:
`switch (opcode & 0xFF)` with the cases `0x9E` and `0xA1`. -/
def keySkipGroup (s : State) (opcode : Nat) : State :=
  if opcode &&& 0xFF = 0x9E then skipvXKey s (opX opcode)
  else if opcode &&& 0xFF = 0xA1 then skipNevXKey s (opX opcode)
  else s

/-- The nested `switch` of the tick loop.  Every `case` ends in `break`
except `case 0xD000:`, whose statements run on into those of `case 0xE000:`;
a selector that matches no `case` of a `switch` without `default` does
nothing.  The cases `0x001X` and `0x00FD` return from `main`. -/
def dispatch (rnd : Nat) (s : State) (opcode : Nat) : Outcome :=
  if opcode &&& 0xF000 = 0x0000 then
    if opcode &&& 0xF00 = 0x000 then
      if opcode &&& 0xF0 = 0x10 then Outcome.exited (programExitValue (opcode &&& 0xF))
      else if opcode &&& 0xF0 = 0xC0 then Outcome.running (scrollDownN s (opcode &&& 0xF))
      else if opcode &&& 0xF0 = 0xE0 then
        if opcode &&& 0xF = 0x0 then Outcome.running (clearScreen s)
        else if opcode &&& 0xF = 0xE then Outcome.ofOption (subroutineReturn s)
        else Outcome.running s
      else if opcode &&& 0xF0 = 0xF0 then
        if opcode &&& 0xF = 0xA then Outcome.running (compatability s)
        else if opcode &&& 0xF = 0xB then Outcome.running (scrollRight s)
        else if opcode &&& 0xF = 0xC then Outcome.running (scrollLeft s)
        else if opcode &&& 0xF = 0xD then Outcome.exited programExit
        else if opcode &&& 0xF = 0xE then Outcome.running (displayBufferLow s)
        else if opcode &&& 0xF = 0xF then Outcome.running (displayBufferHigh s)
        else Outcome.running s
      else Outcome.running s
    else Outcome.running (jump s (opcode &&& 0xFFF))
  else if opcode &&& 0xF000 = 0x1000 then Outcome.ofOption (call s (opcode &&& 0xFFF))
  else if opcode &&& 0xF000 = 0x3000 then
    if opcode &&& 0xF = 0x0 then Outcome.running (skipEqvXvY s (opX opcode) (opY opcode))
    else Outcome.running (skipEqvXValue s (opX opcode) (opcode &&& 0xFF))
  else if opcode &&& 0xF000 = 0x4000 then
    Outcome.running (skipNevXValue s (opX opcode) (opcode &&& 0xFF))
  else if opcode &&& 0xF000 = 0x6000 then
    Outcome.running (loadvXValue s (opX opcode) (opcode &&& 0xFF))
  else if opcode &&& 0xF000 = 0x7000 then
    Outcome.running (addvXValue s (opX opcode) (opcode &&& 0xFF))
  else if opcode &&& 0xF000 = 0x8000 then
    if opcode &&& 0xF = 0x0 then Outcome.running (loadvXvY s (opX opcode) (opY opcode))
    else if opcode &&& 0xF = 0x1 then Outcome.running (orvXvY s (opX opcode) (opY opcode))
    else if opcode &&& 0xF = 0x2 then Outcome.running (andvXvY s (opX opcode) (opY opcode))
    else if opcode &&& 0xF = 0x3 then Outcome.running (xorvXvY s (opX opcode) (opY opcode))
    else if opcode &&& 0xF = 0x4 then Outcome.running (addvXvY s (opX opcode) (opY opcode))
    else if opcode &&& 0xF = 0x5 then Outcome.running (subvXvY s (opX opcode) (opY opcode))
    else if opcode &&& 0xF = 0x6 then Outcome.running (shrvX s (opX opcode))
    else if opcode &&& 0xF = 0x7 then Outcome.running (difvXvY s (opX opcode) (opY opcode))
    else if opcode &&& 0xF = 0xE then Outcome.running (shlvX s (opX opcode))
    else Outcome.running s
  else if opcode &&& 0xF000 = 0x9000 then
    Outcome.running (skipNevXvY s (opX opcode) (opY opcode))
  else if opcode &&& 0xF000 = 0xA000 then Outcome.running (loadI s (opcode &&& 0xFFF))
  else if opcode &&& 0xF000 = 0xB000 then Outcome.running (jumpv0 s (opcode &&& 0xFFF))
  else if opcode &&& 0xF000 = 0xC000 then
    Outcome.running (rndvXMask rnd s (opX opcode) (opcode &&& 0xFF))
  else if opcode &&& 0xF000 = 0xD000 then
    match (if opcode &&& 0xF = 0x0 then drawvXvY s (opX opcode) (opY opcode)
      else drawvXvYRows s (opX opcode) (opY opcode) (opcode &&& 0xF)) with
    | some t => Outcome.running (keySkipGroup t opcode)
    | none => Outcome.undefined
  else if opcode &&& 0xF000 = 0xE000 then Outcome.running (keySkipGroup s opcode)
  else if opcode &&& 0xF000 = 0xF000 then
    if opcode &&& 0xFF = 0x07 then Outcome.running (loadvXTime s (opX opcode))
    else if opcode &&& 0xFF = 0x0A then Outcome.ofOption (loadvXKey s (opX opcode))
    else if opcode &&& 0xFF = 0x15 then Outcome.running (loadTimevX s (opX opcode))
    else if opcode &&& 0xFF = 0x18 then Outcome.running (loadTonevX s (opX opcode))
    else if opcode &&& 0xFF = 0x1E then Outcome.running (addIvX s (opX opcode))
    else if opcode &&& 0xFF = 0x29 then Outcome.running (hexvX s (opX opcode))
    else if opcode &&& 0xFF = 0x33 then Outcome.ofOption (bcdvX s (opX opcode))
    else if opcode &&& 0xFF = 0x55 then Outcome.ofOption (savevX s (opX opcode))
    else if opcode &&& 0xFF = 0x65 then Outcome.ofOption (restorevX s (opX opcode))
    else Outcome.running s
  else Outcome.running s

/-- The statement that ends a tick:
`if (!WaitingForKeyPress) ProgramCounter += 2`. -/
def advancePC (s : State) : State :=
  if s.WaitingForKeyPress = 0 then skipNext s else s

/-- One pass through the body of the tick loop
`for (i = 0; i < ticksPerFrame; i++)`: fetch, the opcode switch, the counter
advance.  `rnd` is the value `rand()` returns if the opcode calls it. -/
def step (rnd : Nat) (s : State) : Outcome :=
  match fetch s with
  | none => Outcome.undefined
  | some opcode =>
    match dispatch rnd s opcode with
    | Outcome.running t => Outcome.running (advancePC t)
    | Outcome.exited status => Outcome.exited status
    | Outcome.undefined => Outcome.undefined

/-- The once-per-frame block `Handle Time and Tone registers`. -/
def updateTimers (s : State) : State :=
  if s.WaitingForKeyPress = 0 then
    let s1 : State := if s.Time > 0 then { s with Time := (s.Time - 1) % 256 } else s
    if s1.Tone > 0 then { s1 with Tone := (s1.Tone - 1) % 256 } else s1
  else s

/-- The once-per-frame block `Handle Input` up to `Keys`: `Keys = 0`, then for
each logical key `k` from 0 to 15 `Keys |= (unsigned short)IsKeyDown(..) << k`;
`down k` is what `IsKeyDown` returns for the key mapped to `k`. -/
def hostKeys (down : Nat → Bool) : Nat :=
  (List.range 16).foldl (fun acc k => (acc ||| ((if down k then 1 else 0) <<< k)) % 65536) 0

/-- The once-per-frame key refresh: the new `Keys`, then
`KeyMask |= ~(Keys)` (complement of a 32-bit `int`, result truncated to the
`unsigned short`). -/
def refreshKeys (down : Nat → Bool) (s : State) : State :=
  let s1 : State := { s with Keys := hostKeys down }
  { s1 with KeyMask := (s1.KeyMask ||| (0xFFFFFFFF ^^^ s1.Keys)) % 65536 }

/-- The `unsigned char` registers `Time` and `Tone` hold bytes. -/
def TimersAreBytes (s : State) : Prop := s.Time < 256 ∧ s.Tone < 256

/-! ## Auxiliary notions used in the statements -/

/-- Pixel `(x, y)` of the low-resolution display, as the renderer reads it:
`Low[y] & ((unsigned long long)1 << (63 - x))`. -/
def lowPixel (s : State) (x y : Nat) : Bool :=
  (s.DisplayBuffer (lowIdx y)).testBit (63 - x)

/-- The sprite row as it is XORed into a low-resolution display row. -/
def lowLine (s : State) (x i : Nat) : Nat := (s.Memory (s.I + i) <<< (56 - x)) % 2 ^ 64

/-- What the three statements of the high-resolution `scrollLeft` body leave
in `High[0][i]`, as a function of the old `High[0][i]` alone. -/
def scrollLeftHighWord (l : Nat) : Nat :=
  ((l <<< 4) % 2 ^ 64 ||| ((l <<< 4) % 2 ^ 64 &&& (0xf <<< 60) % 2 ^ 64) >>> 60) % 2 ^ 64

/-- The sprite row as the low-resolution loop of `drawvXvY` XORs it into a
display row: `(Memory[I + 2*i] << 8) | (Memory[I + 2*i + 1] << (56 - x))`. -/
def xlowLine (s : State) (x i : Nat) : Nat :=
  ((s.Memory (s.I + 2 * i) <<< 8) % 2 ^ 64)
    ||| ((s.Memory (s.I + 2 * i + 1) <<< (56 - x)) % 2 ^ 64)

/-- What the opcode switch can do to `StackCounter`: leave it alone, raise it
by one on an opcode `1NNN` (`call`), or lower it by one on the opcode `00EE`
(`subroutineReturn`). -/
def StackMove (s : State) (opcode : Nat) (o : Outcome) : Prop :=
  ∀ t, o = Outcome.running t →
    t.StackCounter = s.StackCounter
      ∨ (opcode &&& 0xF000 = 0x1000 ∧ t.StackCounter = s.StackCounter + 1)
      ∨ ((opcode &&& 0xF000 = 0x0000 ∧ opcode &&& 0xF00 = 0x000 ∧ opcode &&& 0xF0 = 0xE0
            ∧ opcode &&& 0xF = 0xE) ∧ t.StackCounter = s.StackCounter - 1)

/-- The invariant of the key wait: while `WaitingForKeyPress` is set, the opcode
at `ProgramCounter` is an `FX0A`. -/
def WaitsAtLoad (s : State) : Prop :=
  s.WaitingForKeyPress ≠ 0 → ∃ op, fetch s = some op ∧ op / 4096 = 0xF ∧ op % 256 = 0x0A

/-- What the opcode switch can do to `WaitingForKeyPress`: leave it alone, or
the opcode is an `FX0A`. -/
def WaitMove (s : State) (opcode : Nat) (o : Outcome) : Prop :=
  ∀ t, o = Outcome.running t →
    t.WaitingForKeyPress = s.WaitingForKeyPress
      ∨ (opcode &&& 0xF000 = 0xF000 ∧ opcode &&& 0xFF = 0x0A)

/-! ## Concrete states used to evaluate the routines -/

/-- The machine state set up at the start of `main`, before the font table
and the program are copied into memory: everything zero except
`ProgramCounter = 0x200`, `StackCounter = -1` and `KeyMask = 0xFFFF`. -/
def clearedState : State where
  ProgramCounter := 0x200
  Stack := fun _ => 0
  StackCounter := -1
  DisplayBuffer := fun _ => 0
  DisplayIsHigh := 0
  UsingCompatibility := 0
  Time := 0
  Tone := 0
  I := 0
  Keys := 0
  KeyMask := 0xFFFF
  WaitingForKeyPress := 0
  V := fun _ => 0
  Memory := fun _ => 0

/-- The cleared state with registers `V[0] = a`, `V[1] = b`, `V[15] = f`. -/
def regState (a b f : Nat) : State :=
  { clearedState with V := write (write (write clearedState.V 0 a) 1 b) 15 f }

/-- The cleared state in low resolution with `I = 0x300`, sprite bytes `b0`,
`b1` at `Memory[0x300]`, `Memory[0x301]` and display rows `Low[0] = row0`,
`Low[1] = row1`; all registers are zero, so every sprite is drawn at (0,0). -/
def spriteState (row0 row1 b0 b1 : Nat) : State :=
  { clearedState with
    I := 0x300
    Memory := write (write clearedState.Memory 0x300 b0) 0x301 b1
    DisplayBuffer := write (write clearedState.DisplayBuffer (lowIdx 0) row0) (lowIdx 1) row1 }

/-- The cleared state switched to high resolution with `High[0][0] = l` and
`High[1][0] = r`. -/
def highRowState (l r : Nat) : State :=
  { clearedState with
    DisplayIsHigh := 1
    DisplayBuffer := write (write clearedState.DisplayBuffer (highIdx 0 0) l) (highIdx 1 0) r }

/-- The sixteen hex glyphs written by `main` at `Memory[0xN0 .. 0xN0 + 4]`,
in the order of the source. -/
def fontTable : List (List Nat) :=
  [[0xf0, 0x90, 0x90, 0x90, 0xf0],
   [0x20, 0x60, 0x20, 0x20, 0x70],
   [0xf0, 0x10, 0xf0, 0x80, 0xf0],
   [0xf0, 0x10, 0xf0, 0x10, 0xf0],
   [0x90, 0x90, 0xf0, 0x10, 0x10],
   [0xf0, 0x80, 0xf0, 0x10, 0xf0],
   [0xf0, 0x80, 0xf0, 0x90, 0xf0],
   [0xf0, 0x10, 0x20, 0x40, 0x40],
   [0xf0, 0x90, 0xf0, 0x90, 0xf0],
   [0xf0, 0x90, 0xf0, 0x10, 0xf0],
   [0xf0, 0x90, 0xa0, 0x90, 0x90],
   [0xe0, 0x90, 0xe0, 0x90, 0xe0],
   [0xf0, 0x80, 0x80, 0x80, 0xf0],
   [0xe0, 0x90, 0x90, 0x90, 0xe0],
   [0xf0, 0x80, 0xf0, 0x80, 0xf0],
   [0xf0, 0x80, 0xf0, 0x80, 0x80]]

/-- Memory after the initialisation in `main`: zero, the font glyphs at
`0xN0 + j` (`j < 5`), and the bytes of the program file read by
`fread(Memory + 0x200, 1, 0x1000 - 0x200, programFile)`. -/
def initialMemory (rom : List Nat) (a : Nat) : Nat :=
  if a < 0x100 then (if a % 16 < 5 then (fontTable.getD (a / 16) []).getD (a % 16) 0 else 0)
  else if 0x200 ≤ a ∧ a < 0x1000 then rom.getD (a - 0x200) 0
  else 0

/-- The machine state when `main` enters its frame loop with the program
`rom` loaded. -/
def initialState (rom : List Nat) : State :=
  { clearedState with Memory := initialMemory rom }

/-- The host reports exactly the logical key `k` as held. -/
def onlyKey (k : Nat) : Nat → Bool := fun j => decide (j = k)

/-- The cleared state with the two opcode bytes `hi`, `lo` at
`Memory[0x200]`, `Memory[0x201]`, where `ProgramCounter` points. -/
def opcodeState (hi lo : Nat) : State :=
  { clearedState with Memory := write (write clearedState.Memory 0x200 hi) 0x201 lo }

/-- The cleared state with `I = 0x300` and register `V[r] = r + 1` for every
`r`. -/
def countingRegsState : State :=
  { clearedState with I := 0x300, V := fun r => r + 1 }

/-- The cleared state in resolution mode `high` whose display word `k` holds
`k + 1`, so that all rows differ. -/
def countingRowsState (high : Nat) : State :=
  { clearedState with DisplayIsHigh := high, DisplayBuffer := fun k => k + 1 }

/-- The cleared state with the call `1300` at `0x200`, where `ProgramCounter`
points, and the return `00EE` at `0x300`. -/
def callReturnState : State :=
  { clearedState with
    Memory := write (write (write (write clearedState.Memory 0x200 0x13) 0x201 0x00)
      0x300 0x00) 0x301 0xEE }

/-- The cleared state switched to high resolution with `V[0] = x`, `V[1] = y`,
`I = 0x300` and the sprite bytes `b0`, `b1` at `Memory[0x300]`, `Memory[0x301]`. -/
def highSpriteState (x y b0 b1 : Nat) : State :=
  { clearedState with
    DisplayIsHigh := 1
    I := 0x300
    V := write (write clearedState.V 0 x) 1 y
    Memory := write (write clearedState.Memory 0x300 b0) 0x301 b1 }

/-! # Theorems -/

/-! ## Basic facts -/

theorem write_same (a : Nat → Nat) (i v : Nat) : write a i v i = v := by
  simp [write]

theorem write_other (a : Nat → Nat) (i v j : Nat) (h : j ≠ i) : write a i v j = a j := by
  simp [write, h]

theorem regState_bytes (a b f : Nat) (ha : a < 256) (hb : b < 256) (hf : f < 256) :
    RegsAreBytes (regState a b f) := by
  intro r
  simp only [regState, write, clearedState]
  split_ifs <;> omega

/-! ## Register and ALU routines (C1 to C5) -/

/-- `addvXvY` never writes the flag register: for a destination other than
`V[15]`, `V[15]` keeps its old value whatever the operands are. -/
theorem addvXvY_flag_untouched (s : State) (X Y : Nat) (hX : X ≠ 15) :
    (addvXvY s X Y).V 15 = s.V 15 := by
  simp [addvXvY, write, Ne.symm hX]

/-- Claim C1 (fails on the code): `add vX,vY` should set `V[15]` to 1 when
`vX + vY > 255`.  With `V[0] = 0xFF`, `V[1] = 0x01`, `V[15] = 0`, `addvXvY(0, 1)` wraps
`V[0]` to `0x00` as claimed but leaves `V[15]` at 0: the routine contains no
store to `V[15]` although its own comment promises one. -/
theorem addvXvY_overflow_leaves_flag :
    (addvXvY (regState 0xFF 0x01 0) 0 1).V 0 = 0x00
      ∧ (addvXvY (regState 0xFF 0x01 0) 0 1).V 15 = 0 := by
  decide

/-- For operands other than the flag register `subvXvY` does compute
`(vX - vY) mod 256` and the borrow flag from the values before the call. -/
theorem subvXvY_of_ne_flag (s : State) (X Y : Nat) (hX : X ≠ 15) (hY : Y ≠ 15) :
    (subvXvY s X Y).V X = Int.toNat (((s.V X : Int) - (s.V Y : Int)) % 256)
      ∧ (subvXvY s X Y).V 15 = if s.V X < s.V Y then 1 else 0 := by
  simp [subvXvY, write, hX, hY, Ne.symm hX]

/-- Claim C2 (fails on the code for `Y = 15`): `sub vX,vY` should subtract the
value `vY` held before the operation.  With `V[0] = 5` and `V[15] = 3`,
`subvXvY(0, 15)` first overwrites `V[15]` with the borrow flag 0 and then
subtracts that flag, leaving `V[0] = 5` instead of `(5 - 3) mod 256 = 2`. -/
theorem subvXvY_flag_operand_clobbered :
    (subvXvY (regState 5 0 3) 0 15).V 0 = 5
      ∧ (subvXvY (regState 5 0 3) 0 15).V 15 = 0
      ∧ Int.toNat (((5 : Int) - 3) % 256) = 2 := by
  decide

/-- What `shlvX` does store: the shifted byte in `V[X]` and the masked value
`vX & 0x80`, which is 0 or 128, in `V[15]`. -/
theorem shlvX_stores_masked_bit (s : State) (X : Nat) (hX : X ≠ 15) :
    (shlvX s X).V X = (s.V X <<< 1) % 256
      ∧ (shlvX s X).V 15 = (s.V X &&& 0x80) % 256 := by
  simp [shlvX, write, hX, Ne.symm hX]

/-- Claim C3 (fails on the code): `shl vX` should set `V[15]` to 1 when the high
bit of `vX` was set.  With `V[0] = 0x80`, `shlvX(0)` shifts `V[0]` to `0x00` as
claimed but stores `vX & 0x80 = 0x80` in `V[15]`, not 1. -/
theorem shlvX_flag_is_0x80 :
    (shlvX (regState 0x80 0 0) 0).V 0 = 0x00
      ∧ (shlvX (regState 0x80 0 0) 0).V 15 = 0x80 := by
  decide

/-- Claim C4: for every state whose registers hold bytes and every register
index `X` in 0..14, `shrvX(X)` sets `V[X]` to `vX >> 1` and `V[15]` to the low
bit of `vX`, both taken from the value of `V[X]` before the call. -/
theorem shrvX_spec (s : State) (X : Nat) (hX : X ≤ 14) (hV : RegsAreBytes s) :
    (shrvX s X).V X = s.V X >>> 1 ∧ (shrvX s X).V 15 = s.V X % 2 := by
  have hne : X ≠ 15 := by omega
  have hlt := hV X
  have h1 : s.V X >>> 1 < 256 := by
    rw [Nat.shiftRight_eq_div_pow]; omega
  have h2 : s.V X &&& 1 = s.V X % 2 := Nat.and_one_is_mod _
  simp only [shrvX, write, if_neg hne, if_neg (Ne.symm hne), if_true, h2]
  constructor
  · simp [Nat.mod_eq_of_lt h1]
  · omega

/-- Instance of `shrvX_spec` at `vX = 0x03`: the result is `0x01` with
`V[15] = 1`. -/
theorem shrvX_spec_witness :
    (0 ≤ 14 ∧ RegsAreBytes (regState 0x03 0 0))
      ∧ (shrvX (regState 0x03 0 0) 0).V 0 = 0x01
      ∧ (shrvX (regState 0x03 0 0) 0).V 15 = 1 :=
  ⟨⟨by decide, regState_bytes 3 0 0 (by decide) (by decide) (by decide)⟩,
    shrvX_spec (regState 0x03 0 0) 0 (by decide)
      (regState_bytes 3 0 0 (by decide) (by decide) (by decide))⟩

/-- Claim C5: `addvXValue(X, KK)` sets `V[X]` to `(vX + KK) mod 256`, leaves
every other register (so `V[15]` too when `X` is not 15) and every other
field of the state unchanged. -/
theorem addvXValue_spec (s : State) (X KK : Nat) :
    (addvXValue s X KK).V X = (s.V X + KK) % 256
      ∧ (∀ r, r ≠ X → (addvXValue s X KK).V r = s.V r)
      ∧ (addvXValue s X KK).ProgramCounter = s.ProgramCounter
      ∧ (addvXValue s X KK).Stack = s.Stack
      ∧ (addvXValue s X KK).StackCounter = s.StackCounter
      ∧ (addvXValue s X KK).DisplayBuffer = s.DisplayBuffer
      ∧ (addvXValue s X KK).DisplayIsHigh = s.DisplayIsHigh
      ∧ (addvXValue s X KK).UsingCompatibility = s.UsingCompatibility
      ∧ (addvXValue s X KK).Time = s.Time
      ∧ (addvXValue s X KK).Tone = s.Tone
      ∧ (addvXValue s X KK).I = s.I
      ∧ (addvXValue s X KK).Keys = s.Keys
      ∧ (addvXValue s X KK).KeyMask = s.KeyMask
      ∧ (addvXValue s X KK).WaitingForKeyPress = s.WaitingForKeyPress
      ∧ (addvXValue s X KK).Memory = s.Memory := by
  refine ⟨by simp [addvXValue, write], ?_, rfl, rfl, rfl, rfl, rfl, rfl, rfl, rfl, rfl, rfl,
    rfl, rfl, rfl⟩
  intro r hr
  simp [addvXValue, write, hr]

/-! ## Low-resolution sprite drawing (C6 to C8) -/

theorem forLoop_succ (body : Nat → State → Option State) (n : Nat) (s : State) :
    forLoop body (n + 1) s = (forLoop body n s).bind (body n) := rfl

/-- Loop invariant of the low-resolution `drawvXvYRows` loop: after `n`
in-range iterations the rows `y .. y + n - 1` have been XORed with their
sprite line and nothing but `V[15]` and those rows has changed. -/
theorem drawRowLow_loop (x y : Nat) (s : State) (hx : x ≤ 56) :
    ∀ n, s.I + n ≤ 4096 → y + n ≤ 32 →
      ∃ t, forLoop (drawRowLow x y) n s = some t
        ∧ t.Memory = s.Memory ∧ t.I = s.I ∧ t.DisplayIsHigh = s.DisplayIsHigh
        ∧ (∀ r, r ≠ 15 → t.V r = s.V r)
        ∧ (∀ k, t.DisplayBuffer k =
            if y ≤ k ∧ k < y + n then (s.DisplayBuffer k ^^^ lowLine s x (k - y)) % 2 ^ 64
            else s.DisplayBuffer k) := by
  intro n
  induction n with
  | zero =>
    intro _ _
    refine ⟨s, rfl, rfl, rfl, rfl, fun _ _ => rfl, fun k => ?_⟩
    have : ¬ (y ≤ k ∧ k < y + 0) := by omega
    rw [if_neg this]
  | succ n ih =>
    intro hI hy
    obtain ⟨s1, hrun, hM, hIeq, hHigh, hV, hD⟩ := ih (by omega) (by omega)
    have hguard : s1.I + n < 4096 ∧ y + n < 32 ∧ x ≤ 56 := by
      rw [hIeq]; omega
    rw [forLoop_succ, hrun, Option.some_bind]
    simp only [drawRowLow, if_pos hguard]
    refine ⟨_, rfl, hM, hIeq, hHigh, ?_, ?_⟩
    · intro r hr
      simp only [write, if_neg hr]
      exact hV r hr
    · intro k
      simp only [write, lowIdx]
      by_cases hk : k = y + n
      · subst hk
        have h1 : y ≤ y + n ∧ y + n < y + (n + 1) := by omega
        have h2 : ¬ (y ≤ y + n ∧ y + n < y + n) := by omega
        rw [if_pos rfl, if_pos h1, hD (y + n), if_neg h2, hM, hIeq]
        simp [lowLine]
      · rw [if_neg hk, hD k]
        by_cases hr : y ≤ k ∧ k < y + n
        · have hr2 : y ≤ k ∧ k < y + (n + 1) := by omega
          rw [if_pos hr, if_pos hr2]
        · have hr2 : ¬ (y ≤ k ∧ k < y + (n + 1)) := by omega
          rw [if_neg hr, if_neg hr2]

/-- Low-resolution `drawvXvYRows` in closed form: it is defined whenever the
sprite lies inside the screen and memory, and XORs row `y + i` with sprite
line `i`. -/
theorem drawvXvYRows_low (s : State) (X Y N : Nat) (hlow : s.DisplayIsHigh = 0)
    (hx : s.V X ≤ 56) (hy : s.V Y + N ≤ 32) (hI : s.I + N ≤ 4096) :
    ∃ t, drawvXvYRows s X Y N = some t
      ∧ t.Memory = s.Memory ∧ t.I = s.I ∧ t.DisplayIsHigh = s.DisplayIsHigh
      ∧ (∀ r, r ≠ 15 → t.V r = s.V r)
      ∧ (∀ k, t.DisplayBuffer k =
          if s.V Y ≤ k ∧ k < s.V Y + N then
            (s.DisplayBuffer k ^^^ lowLine s (s.V X) (k - s.V Y)) % 2 ^ 64
          else s.DisplayBuffer k) := by
  have h := drawRowLow_loop (s.V X) (s.V Y) s hx N hI hy
  simpa [drawvXvYRows, hlow] using h

theorem byte_testBit_high (m t : Nat) (hm : m < 256) (ht : 8 ≤ t) : m.testBit t = false := by
  apply Nat.testBit_lt_two_pow
  calc m < 2 ^ 8 := hm
    _ ≤ 2 ^ t := Nat.pow_le_pow_right (by decide) ht

theorem lowLine_testBit (s : State) (x i b : Nat) (hb : b < 64) :
    (lowLine s x i).testBit b
      = (decide (56 - x ≤ b) && (s.Memory (s.I + i)).testBit (b - (56 - x))) := by
  unfold lowLine
  rw [Nat.testBit_mod_two_pow, Nat.testBit_shiftLeft]
  simp [hb]

theorem word_xor_testBit (a l b : Nat) (hb : b < 64) :
    ((a ^^^ l) % 2 ^ 64).testBit b = (a.testBit b ^^ l.testBit b) := by
  rw [Nat.testBit_mod_two_pow, Nat.testBit_xor]
  simp [hb]

/-- Claim C6: in low resolution, with `x = V[X] <= 56`, `y = V[Y]`, `N` in 1..15,
`y + N <= 32` and `I + N <= 4096`, `drawvXvYRows(X, Y, N)` is defined and flips
pixel `(x + j, y + i)`, that is bit `63 - (x + j)` of `Low[y + i]`, exactly when
bit `7 - j` of `Memory[I + i]` is set (`i < N`, `j < 8`); every other pixel of
the display storage and all of `Memory` are unchanged. -/
theorem drawvXvYRows_low_pixels (s : State) (X Y N : Nat)
    (hlow : s.DisplayIsHigh = 0) (hmem : MemoryIsBytes s) (hx : s.V X ≤ 56)
    (_hN1 : 1 ≤ N) (_hN : N ≤ 15) (hy : s.V Y + N ≤ 32) (hI : s.I + N ≤ 4096) :
    ∃ t, drawvXvYRows s X Y N = some t
      ∧ (∀ i j, i < N → j < 8 →
          (t.DisplayBuffer (lowIdx (s.V Y + i))).testBit (63 - (s.V X + j))
            = ((s.DisplayBuffer (lowIdx (s.V Y + i))).testBit (63 - (s.V X + j))
                ^^ (s.Memory (s.I + i)).testBit (7 - j)))
      ∧ (∀ k b, b < 64 →
          (¬ ∃ i j, i < N ∧ j < 8 ∧ k = lowIdx (s.V Y + i) ∧ b = 63 - (s.V X + j)) →
          (t.DisplayBuffer k).testBit b = (s.DisplayBuffer k).testBit b)
      ∧ t.Memory = s.Memory := by
  obtain ⟨t, hrun, hM, _, _, _, hD⟩ := drawvXvYRows_low s X Y N hlow hx hy hI
  refine ⟨t, hrun, ?_, ?_, hM⟩
  · intro i j hi hj
    have hr : s.V Y ≤ s.V Y + i ∧ s.V Y + i < s.V Y + N := by omega
    have hb : 63 - (s.V X + j) < 64 := by omega
    have hle : 56 - s.V X ≤ 63 - (s.V X + j) := by omega
    have hsub : 63 - (s.V X + j) - (56 - s.V X) = 7 - j := by omega
    rw [lowIdx, hD, if_pos hr, word_xor_testBit _ _ _ hb, lowLine_testBit _ _ _ _ hb,
      Nat.add_sub_cancel_left, hsub]
    simp [hle]
  · intro k b hb hnot
    rw [hD]
    split
    · rename_i hr
      rw [word_xor_testBit _ _ _ hb, lowLine_testBit _ _ _ _ hb]
      have hfalse : (decide (56 - s.V X ≤ b)
          && (s.Memory (s.I + (k - s.V Y))).testBit (b - (56 - s.V X))) = false := by
        by_cases hle : 56 - s.V X ≤ b
        · by_cases ht : 8 ≤ b - (56 - s.V X)
          · rw [byte_testBit_high _ _ (hmem _) ht]; simp
          · exfalso
            apply hnot
            refine ⟨k - s.V Y, 7 - (b - (56 - s.V X)), ?_, ?_, ?_, ?_⟩
            · omega
            · omega
            · simp only [lowIdx]; omega
            · omega
        · simp [hle]
      rw [hfalse]; simp
    · rfl

theorem spriteState_bytes (row0 row1 b0 b1 : Nat) (h0 : b0 < 256) (h1 : b1 < 256) :
    MemoryIsBytes (spriteState row0 row1 b0 b1) := by
  intro a
  simp only [spriteState, write, clearedState]
  split_ifs <;> first | assumption | decide

/-- Instance of `drawvXvYRows_low_pixels`: the one-row sprite `0xFF` drawn at
(0,0) on a cleared screen. -/
theorem drawvXvYRows_low_pixels_witness :
    ((spriteState 0 0 0xFF 0).DisplayIsHigh = 0 ∧ MemoryIsBytes (spriteState 0 0 0xFF 0)
        ∧ (spriteState 0 0 0xFF 0).V 0 ≤ 56 ∧ 1 ≤ 1 ∧ 1 ≤ 15
        ∧ (spriteState 0 0 0xFF 0).V 1 + 1 ≤ 32 ∧ (spriteState 0 0 0xFF 0).I + 1 ≤ 4096)
      ∧ ∃ t, drawvXvYRows (spriteState 0 0 0xFF 0) 0 1 1 = some t
          ∧ (∀ i j, i < 1 → j < 8 →
              (t.DisplayBuffer (lowIdx (0 + i))).testBit (63 - (0 + j))
                = (((spriteState 0 0 0xFF 0).DisplayBuffer (lowIdx (0 + i))).testBit
                      (63 - (0 + j))
                    ^^ ((spriteState 0 0 0xFF 0).Memory (0x300 + i)).testBit (7 - j)))
          ∧ (∀ k b, b < 64 →
              (¬ ∃ i j, i < 1 ∧ j < 8 ∧ k = lowIdx (0 + i) ∧ b = 63 - (0 + j)) →
              (t.DisplayBuffer k).testBit b
                = ((spriteState 0 0 0xFF 0).DisplayBuffer k).testBit b)
          ∧ t.Memory = (spriteState 0 0 0xFF 0).Memory :=
  ⟨⟨rfl, spriteState_bytes 0 0 0xFF 0 (by decide) (by decide), by decide, by decide,
      by decide, by decide, by decide⟩,
    drawvXvYRows_low_pixels (spriteState 0 0 0xFF 0) 0 1 1 rfl
      (spriteState_bytes 0 0 0xFF 0 (by decide) (by decide)) (by decide) (by decide)
      (by decide) (by decide) (by decide)⟩

theorem lowLine_lt (s : State) (x i : Nat) : lowLine s x i < 2 ^ 64 :=
  Nat.mod_lt _ (by decide)

theorem lowLine_congr (s t : State) (x i : Nat) (hM : t.Memory = s.Memory) (hI : t.I = s.I) :
    lowLine t x i = lowLine s x i := by
  simp [lowLine, hM, hI]

theorem word_xor_twice (a l : Nat) (ha : a < 2 ^ 64) (hl : l < 2 ^ 64) :
    ((a ^^^ l) % 2 ^ 64 ^^^ l) % 2 ^ 64 = a := by
  rw [Nat.mod_eq_of_lt (Nat.xor_lt_two_pow ha hl), Nat.xor_cancel_right, Nat.mod_eq_of_lt ha]

/-- Claim C7: in low resolution, for `X` and `Y` both different from 15, `N` in
1..15, `V[X] <= 56`, `V[Y] + N <= 32` and `I + N <= 4096`, running
`drawvXvYRows(X, Y, N)` twice in a row is defined both times and restores
the display buffer to exactly its contents before the first draw. -/
theorem drawvXvYRows_low_twice (s : State) (X Y N : Nat)
    (hlow : s.DisplayIsHigh = 0) (hw : DisplayIsWords s) (hX : X ≠ 15) (hY : Y ≠ 15)
    (_hN1 : 1 ≤ N) (_hN : N ≤ 15) (hx : s.V X ≤ 56) (hy : s.V Y + N ≤ 32)
    (hI : s.I + N ≤ 4096) :
    ∃ s1 s2, drawvXvYRows s X Y N = some s1 ∧ drawvXvYRows s1 X Y N = some s2
      ∧ s2.DisplayBuffer = s.DisplayBuffer := by
  obtain ⟨s1, hrun1, hM1, hI1, hH1, hV1, hD1⟩ := drawvXvYRows_low s X Y N hlow hx hy hI
  have hx1 : s1.V X = s.V X := hV1 X hX
  have hy1 : s1.V Y = s.V Y := hV1 Y hY
  obtain ⟨s2, hrun2, _, _, _, _, hD2⟩ :=
    drawvXvYRows_low s1 X Y N (hH1.trans hlow) (by rw [hx1]; exact hx)
      (by rw [hy1]; exact hy) (by rw [hI1]; exact hI)
  refine ⟨s1, s2, hrun1, hrun2, ?_⟩
  funext k
  rw [hD2, hx1, hy1, hD1, lowLine_congr s s1 _ _ hM1 hI1]
  split
  · exact word_xor_twice _ _ (hw k) (lowLine_lt _ _ _)
  · rfl

theorem spriteState_words (row0 row1 b0 b1 : Nat) (h0 : row0 < 2 ^ 64) (h1 : row1 < 2 ^ 64) :
    DisplayIsWords (spriteState row0 row1 b0 b1) := by
  intro k
  simp only [spriteState, write, clearedState]
  split_ifs <;> first | assumption | decide

/-- Instance of `drawvXvYRows_low_twice`: sprite byte `0xFF` drawn at (0,0) on
a cleared screen sets the top 8 bits of row 0, and a second draw restores
the cleared buffer. -/
theorem drawvXvYRows_low_twice_witness :
    ((spriteState 0 0 0xFF 0).DisplayIsHigh = 0 ∧ DisplayIsWords (spriteState 0 0 0xFF 0)
        ∧ 0 ≠ 15 ∧ 1 ≠ 15 ∧ 1 ≤ 1 ∧ 1 ≤ 15 ∧ (spriteState 0 0 0xFF 0).V 0 ≤ 56
        ∧ (spriteState 0 0 0xFF 0).V 1 + 1 ≤ 32 ∧ (spriteState 0 0 0xFF 0).I + 1 ≤ 4096)
      ∧ (drawvXvYRows (spriteState 0 0 0xFF 0) 0 1 1).map (fun s => s.DisplayBuffer (lowIdx 0))
          = some 0xFF00000000000000
      ∧ ∃ s1 s2, drawvXvYRows (spriteState 0 0 0xFF 0) 0 1 1 = some s1
          ∧ drawvXvYRows s1 0 1 1 = some s2
          ∧ s2.DisplayBuffer = (spriteState 0 0 0xFF 0).DisplayBuffer :=
  ⟨⟨rfl, spriteState_words 0 0 0xFF 0 (by decide) (by decide), by decide, by decide,
      by decide, by decide, by decide, by decide, by decide⟩,
    by decide,
    drawvXvYRows_low_twice (spriteState 0 0 0xFF 0) 0 1 1 rfl
      (spriteState_words 0 0 0xFF 0 (by decide) (by decide)) (by decide) (by decide)
      (by decide) (by decide) (by decide) (by decide) (by decide)⟩

/-- The flag left by a low-resolution draw is the collision test of the last
row alone: `V[15]` is 1 exactly when row `y + N - 1` shares a set bit with
sprite line `N - 1`. -/
theorem drawvXvYRows_low_flag (s : State) (X Y N : Nat) (hlow : s.DisplayIsHigh = 0)
    (hx : s.V X ≤ 56) (hN1 : 1 ≤ N) (hy : s.V Y + N ≤ 32) (hI : s.I + N ≤ 4096) :
    ∃ t, drawvXvYRows s X Y N = some t
      ∧ t.V 15 = if s.DisplayBuffer (lowIdx (s.V Y + (N - 1)))
                    &&& lowLine s (s.V X) (N - 1) ≠ 0 then 1 else 0 := by
  obtain ⟨n, rfl⟩ : ∃ n, N = n + 1 := ⟨N - 1, by omega⟩
  obtain ⟨s1, hrun, hM, hIeq, _, _, hD⟩ :=
    drawRowLow_loop (s.V X) (s.V Y) s hx n (by omega) (by omega)
  have hguard : s1.I + n < 4096 ∧ s.V Y + n < 32 ∧ s.V X ≤ 56 := by
    rw [hIeq]; omega
  have hrow : ¬ (s.V Y ≤ s.V Y + n ∧ s.V Y + n < s.V Y + n) := by omega
  have hrun2 : drawvXvYRows s X Y (n + 1)
      = (forLoop (drawRowLow (s.V X) (s.V Y)) n s).bind (drawRowLow (s.V X) (s.V Y) n) := by
    simp [drawvXvYRows, hlow, forLoop_succ]
  rw [hrun2, hrun, Option.some_bind]
  simp only [drawRowLow, if_pos hguard]
  refine ⟨_, rfl, ?_⟩
  simp only [write, lowIdx, if_true, Nat.add_sub_cancel, lowLine]
  have e : s1.DisplayBuffer (s.V Y + n) = s.DisplayBuffer (s.V Y + n) := by
    rw [hD (s.V Y + n), if_neg hrow]
  simp only [e, hM, hIeq]

/-- Claim C8 (fails on the code): `V[15]` should be 1 when any of the `N` rows
erases a pixel.  On a screen whose row 0 has its top 8 bits set and whose
row 1 is clear, drawing the two-row sprite `0xFF, 0xFF` at (0,0) erases all 8
pixels of row 0 (the row and the sprite line share set bits), yet the flag
written for row 1 overwrites the one of row 0 and `V[15]` ends at 0. -/
theorem drawvXvYRows_flag_from_last_row_only :
    (spriteState 0xFF00000000000000 0 0xFF 0xFF).DisplayBuffer (lowIdx 0)
        &&& lowLine (spriteState 0xFF00000000000000 0 0xFF 0xFF) 0 0 ≠ 0
      ∧ (drawvXvYRows (spriteState 0xFF00000000000000 0 0xFF 0xFF) 0 1 2).map
          (fun s => (s.DisplayBuffer (lowIdx 0), s.DisplayBuffer (lowIdx 1), s.V 15))
          = some (0, 0xFF00000000000000, 0) := by
  decide

/-! ## Horizontal scrolling (C9, C10) -/

/-- A loop whose body rewrites word `i` of the display by `f` rewrites the
first `n` words by `f` and nothing else. -/
theorem forLoopT_rowmap (f : Nat → Nat) (body : Nat → State → State)
    (hbody : ∀ i s, body i s
      = { s with DisplayBuffer := write s.DisplayBuffer i (f (s.DisplayBuffer i)) }) :
    ∀ n s, forLoopT body n s
      = { s with
          DisplayBuffer := fun k => if k < n then f (s.DisplayBuffer k) else s.DisplayBuffer k } := by
  intro n
  induction n with
  | zero => intro s; simp [forLoopT]
  | succ n ih =>
    intro s
    simp only [forLoopT, ih, hbody]
    congr 1
    funext k
    simp only [write]
    by_cases hk : k = n
    · subst hk; simp
    · have : (k < n + 1) = (k < n) := by
        apply propext; omega
      simp [hk, this]

theorem scrollRight_low (s : State) (hlow : s.DisplayIsHigh = 0) :
    scrollRight s
      = { s with
          DisplayBuffer := fun k =>
            if k < 32 then (s.DisplayBuffer k >>> 4) % 2 ^ 64 else s.DisplayBuffer k } := by
  unfold scrollRight
  rw [if_neg (by simp [hlow])]
  exact forLoopT_rowmap (fun w => (w >>> 4) % 2 ^ 64) scrollRightLowRow (fun _ _ => rfl) 32 s

theorem scrollLeft_low (s : State) (hlow : s.DisplayIsHigh = 0) :
    scrollLeft s
      = { s with
          DisplayBuffer := fun k =>
            if k < 32 then (s.DisplayBuffer k <<< 4) % 2 ^ 64 else s.DisplayBuffer k } := by
  unfold scrollLeft
  rw [if_neg (by simp [hlow])]
  exact forLoopT_rowmap (fun w => (w <<< 4) % 2 ^ 64) scrollLeftLowRow (fun _ _ => rfl) 32 s

theorem low_nibble_clear (a : Nat) (h : ∀ b, b < 4 → a.testBit b = false) : a % 16 = 0 := by
  apply Nat.eq_of_testBit_eq
  intro i
  rw [show (16 : Nat) = 2 ^ 4 from rfl, Nat.testBit_mod_two_pow, Nat.zero_testBit]
  by_cases hi : i < 4
  · simp [hi, h i hi]
  · simp [hi]

theorem shift_right_left_word (a : Nat) (ha : a < 2 ^ 64) (h16 : a % 16 = 0) :
    (((a >>> 4) % 2 ^ 64) <<< 4) % 2 ^ 64 = a := by
  rw [Nat.shiftRight_eq_div_pow, Nat.shiftLeft_eq]
  norm_num at ha ⊢
  omega

/-- Claim C9: in low resolution `scrollRight` shifts each of the 32 rows right by
4 bits, and on every display buffer whose four rightmost pixels (columns
60..63) are clear in every row, `scrollLeft` after `scrollRight` gives back
the original state. -/
theorem scrollRight_scrollLeft_low (s : State) (hlow : s.DisplayIsHigh = 0)
    (hw : DisplayIsWords s) :
    (∀ i, i < 32 →
        (scrollRight s).DisplayBuffer (lowIdx i) = s.DisplayBuffer (lowIdx i) >>> 4)
      ∧ ((∀ x y, y < 32 → 60 ≤ x → x < 64 → lowPixel s x y = false) →
          scrollLeft (scrollRight s) = s) := by
  constructor
  · intro i hi
    have hlt : s.DisplayBuffer i >>> 4 < 2 ^ 64 := by
      rw [Nat.shiftRight_eq_div_pow]
      exact lt_of_le_of_lt (Nat.div_le_self _ _) (hw i)
    rw [scrollRight_low s hlow]
    simp only [lowIdx, if_pos hi]
    exact Nat.mod_eq_of_lt hlt
  · intro hpix
    have h16 : ∀ k, k < 32 → s.DisplayBuffer k % 16 = 0 := by
      intro k hk
      apply low_nibble_clear
      intro b hb
      have := hpix (63 - b) k hk (by omega) (by omega)
      simp only [lowPixel, lowIdx] at this
      rwa [show 63 - (63 - b) = b by omega] at this
    rw [scrollLeft_low _ (by rw [scrollRight_low s hlow]; exact hlow), scrollRight_low s hlow]
    cases s with
    | mk pc st sc db hi uc ti tn ir ks km wk v m =>
      simp only [State.mk.injEq, true_and, and_true]
      funext k
      by_cases hk : k < 32
      · simp only [if_pos hk]
        exact shift_right_left_word _ (hw k) (h16 k hk)
      · simp only [if_neg hk]

theorem spriteState_right_pixels_clear :
    ∀ x y, y < 32 → 60 ≤ x → x < 64 →
      lowPixel (spriteState 0xFF00000000000000 0 0 0) x y = false := by
  intro x y _ hx1 hx2
  simp only [lowPixel, spriteState, write, clearedState, lowIdx]
  interval_cases x <;> split_ifs <;> decide

/-- Instance of `scrollRight_scrollLeft_low`: the row `0xFF00000000000000`
becomes `0x0FF0000000000000`, and `scrollLeft` restores it. -/
theorem scrollRight_scrollLeft_low_witness :
    ((spriteState 0xFF00000000000000 0 0 0).DisplayIsHigh = 0
        ∧ DisplayIsWords (spriteState 0xFF00000000000000 0 0 0))
      ∧ (scrollRight (spriteState 0xFF00000000000000 0 0 0)).DisplayBuffer (lowIdx 0)
          = 0x0FF0000000000000
      ∧ scrollLeft (scrollRight (spriteState 0xFF00000000000000 0 0 0))
          = spriteState 0xFF00000000000000 0 0 0 :=
  ⟨⟨rfl, spriteState_words _ 0 0 0 (by decide) (by decide)⟩,
    (scrollRight_scrollLeft_low (spriteState 0xFF00000000000000 0 0 0) rfl
      (spriteState_words _ 0 0 0 (by decide) (by decide))).1 0 (by decide),
    (scrollRight_scrollLeft_low (spriteState 0xFF00000000000000 0 0 0) rfl
      (spriteState_words _ 0 0 0 (by decide) (by decide))).2 spriteState_right_pixels_clear⟩

theorem scrollLeftHighRow_display (i : Nat) (s : State) (k : Nat) :
    (scrollLeftHighRow i s).DisplayBuffer k
      = if k = 64 + i then (s.DisplayBuffer (64 + i) <<< 4) % 2 ^ 64
        else if k = i then scrollLeftHighWord (s.DisplayBuffer i)
        else s.DisplayBuffer k := by
  have h1 : (64 + i = i) = False := by
    apply propext; constructor
    · intro h; omega
    · intro h; exact h.elim
  simp only [scrollLeftHighRow, write, highIdx, scrollLeftHighWord, Nat.mul_zero, Nat.mul_one,
    Nat.zero_add, if_true, h1, if_false]
  by_cases hA : k = 64 + i
  · rw [if_pos hA, if_pos hA]
  · rw [if_neg hA, if_neg hA]
    by_cases hB : k = i
    · rw [if_pos hB, if_pos hB]
    · rw [if_neg hB, if_neg hB, if_neg hB]

theorem scrollLeftHigh_loop (s : State) :
    ∀ n, n ≤ 64 → ∀ k, (forLoopT scrollLeftHighRow n s).DisplayBuffer k
      = if k < n then scrollLeftHighWord (s.DisplayBuffer k)
        else if 64 ≤ k ∧ k < 64 + n then (s.DisplayBuffer k <<< 4) % 2 ^ 64
        else s.DisplayBuffer k := by
  intro n
  induction n with
  | zero =>
    intro _ k
    have h1 : ¬ k < 0 := by omega
    have h2 : ¬ (64 ≤ k ∧ k < 64 + 0) := by omega
    rw [if_neg h1, if_neg h2]; rfl
  | succ n ih =>
    intro hn k
    have ih1 := ih (by omega)
    show (scrollLeftHighRow n (forLoopT scrollLeftHighRow n s)).DisplayBuffer k = _
    rw [scrollLeftHighRow_display, ih1 k, ih1 n, ih1 (64 + n)]
    by_cases hA : k = 64 + n
    · subst hA
      have c1 : ¬ 64 + n < n := by omega
      have c2 : ¬ (64 ≤ 64 + n ∧ 64 + n < 64 + n) := by omega
      have c3 : ¬ 64 + n < n + 1 := by omega
      have c4 : 64 ≤ 64 + n ∧ 64 + n < 64 + (n + 1) := by omega
      rw [if_pos rfl, if_neg c1, if_neg c2, if_neg c3, if_pos c4]
    · rw [if_neg hA]
      by_cases hB : k = n
      · subst hB
        have c1 : ¬ k < k := by omega
        have c2 : ¬ (64 ≤ k ∧ k < 64 + k) := by omega
        have c3 : k < k + 1 := by omega
        rw [if_pos rfl, if_neg c1, if_neg c2, if_pos c3]
      · rw [if_neg hB]
        by_cases hC : k < n
        · have c3 : k < n + 1 := by omega
          rw [if_pos hC, if_pos c3]
        · have c3 : ¬ k < n + 1 := by omega
          rw [if_neg hC, if_neg c3]
          by_cases hD : 64 ≤ k ∧ k < 64 + n
          · have c4 : 64 ≤ k ∧ k < 64 + (n + 1) := by omega
            rw [if_pos hD, if_pos c4]
          · have c4 : ¬ (64 ≤ k ∧ k < 64 + (n + 1)) := by omega
            rw [if_neg hD, if_neg c4]

/-- High-resolution `scrollLeft` in closed form: the new left half of row `i`
depends on the old left half only, the new right half is the old right half
shifted left by 4. -/
theorem scrollLeft_high_rows (s : State) (hhigh : s.DisplayIsHigh ≠ 0) (i : Nat) (hi : i < 64) :
    (scrollLeft s).DisplayBuffer (highIdx 0 i) = scrollLeftHighWord (s.DisplayBuffer (highIdx 0 i))
      ∧ (scrollLeft s).DisplayBuffer (highIdx 1 i)
          = (s.DisplayBuffer (highIdx 1 i) <<< 4) % 2 ^ 64 := by
  unfold scrollLeft
  rw [if_pos hhigh]
  have h0 : highIdx 0 i = i := by simp [highIdx]
  have h1 : highIdx 1 i = 64 + i := by simp [highIdx]
  rw [h0, h1, scrollLeftHigh_loop s 64 (le_refl _) i, scrollLeftHigh_loop s 64 (le_refl _) (64 + i)]
  have c1 : ¬ 64 + i < 64 := by omega
  have c2 : 64 ≤ 64 + i ∧ 64 + i < 64 + 64 := by omega
  rw [if_pos hi, if_neg c1, if_pos c2]
  exact ⟨rfl, rfl⟩

/-- Claim C10 (fails on the code): in high resolution the low 4 bits of the new
left half should be the top 4 bits of the old right half.  With
`High[0][0] = 0x0F00000000000000` and `High[1][0] = 0xA000000000000000`,
`scrollLeft` leaves `High[0][0] = 0xF00000000000000F`: the carried nibble `F` is
the top nibble of the already shifted left half, where the claim asks for
`0xF00000000000000A`.  The right half becomes `(old right << 4) mod 2^64 = 0`
as claimed. -/
theorem scrollLeft_high_carry_from_wrong_half :
    (scrollLeft (highRowState 0x0F00000000000000 0xA000000000000000)).DisplayBuffer (highIdx 0 0)
        = 0xF00000000000000F
      ∧ (scrollLeft (highRowState 0x0F00000000000000 0xA000000000000000)).DisplayBuffer
          (highIdx 1 0) = 0
      ∧ ((0x0F00000000000000 <<< 4) % 2 ^ 64 ||| 0xA000000000000000 >>> 60)
          = 0xF00000000000000A := by
  have h := scrollLeft_high_rows (highRowState 0x0F00000000000000 0xA000000000000000)
    (by decide) 0 (by decide)
  refine ⟨h.1.trans (by decide), h.2.trans (by decide), by decide⟩

/-! ## Opcode fields as quotients and remainders -/

/-- Masking with a nibble mask `0xF << k` extracts the nibble at bit `k`. -/
theorem and_nibble_mask (x k : Nat) : x &&& (15 <<< k) = x / 2 ^ k % 16 * 2 ^ k := by
  apply Nat.eq_of_testBit_eq
  intro i
  rw [Nat.testBit_and, Nat.testBit_shiftLeft, Nat.mul_comm, Nat.testBit_mul_pow_two,
    show (16 : Nat) = 2 ^ 4 from rfl, Nat.testBit_mod_two_pow, ← Nat.shiftRight_eq_div_pow,
    Nat.testBit_shiftRight, show (15 : Nat) = 2 ^ 4 - 1 from rfl, Nat.testBit_two_pow_sub_one]
  by_cases h : i ≥ k
  · have e : k + (i - k) = i := by omega
    simp [h, e, Bool.and_comm]
  · simp [h]

theorem and_F000 (x : Nat) : x &&& 0xF000 = x / 4096 % 16 * 4096 := and_nibble_mask x 12

theorem and_F00 (x : Nat) : x &&& 0xF00 = x / 256 % 16 * 256 := and_nibble_mask x 8

theorem and_F0 (x : Nat) : x &&& 0xF0 = x / 16 % 16 * 16 := and_nibble_mask x 4

theorem and_F (x : Nat) : x &&& 0xF = x % 16 := Nat.and_pow_two_sub_one_eq_mod x 4

theorem and_FF (x : Nat) : x &&& 0xFF = x % 256 := Nat.and_pow_two_sub_one_eq_mod x 8

theorem and_FFF (x : Nat) : x &&& 0xFFF = x % 4096 := Nat.and_pow_two_sub_one_eq_mod x 12

theorem opX_eq (x : Nat) : opX x = x / 256 % 16 := by
  rw [opX, and_F00, Nat.shiftRight_eq_div_pow]
  norm_num

theorem opY_eq (x : Nat) : opY x = x / 16 % 16 := by
  rw [opY, and_F0, Nat.shiftRight_eq_div_pow]
  norm_num

/-- The fetched opcode is the big-endian pair of the two bytes at
`ProgramCounter`. -/
theorem fetch_bytes (s : State) (hpc : s.ProgramCounter + 1 < 4096)
    (hhi : s.Memory s.ProgramCounter < 256) (hlo : s.Memory (s.ProgramCounter + 1) < 256) :
    fetch s = some (256 * s.Memory s.ProgramCounter + s.Memory (s.ProgramCounter + 1)) := by
  have e : s.Memory s.ProgramCounter <<< 8 ||| s.Memory (s.ProgramCounter + 1)
      = 256 * s.Memory s.ProgramCounter + s.Memory (s.ProgramCounter + 1) := by
    rw [Nat.shiftLeft_eq, Nat.mul_comm]
    exact (Nat.mul_add_lt_is_or (i := 8) hlo _).symm
  rw [fetch, if_pos hpc, e, Nat.mod_eq_of_lt (by omega)]

/-- One tick, once the opcode has been fetched. -/
theorem step_of_fetch (rnd : Nat) (s : State) (opcode : Nat) (hop : fetch s = some opcode) :
    step rnd s = match dispatch rnd s opcode with
      | Outcome.running t => Outcome.running (advancePC t)
      | Outcome.exited status => Outcome.exited status
      | Outcome.undefined => Outcome.undefined := by
  simp [step, hop]

/-! ## High-resolution `scrollRight` (C11) -/

/-- Effect of one high-resolution `scrollRight` iteration on every display word. -/
theorem scrollRightHighRow_display (i : Nat) (s : State) (k : Nat) :
    (scrollRightHighRow i s).DisplayBuffer k
      = if k = i then (s.DisplayBuffer i >>> 4) % 2 ^ 64
        else if k = 64 + i then
          ((s.DisplayBuffer (64 + i) >>> 4) % 2 ^ 64
            ||| ((s.DisplayBuffer i &&& 0xf) <<< 60) % 2 ^ 64) % 2 ^ 64
        else s.DisplayBuffer k := by
  have h1 : (i = 64 + i) = False := by
    apply propext; constructor
    · intro h; omega
    · intro h; exact h.elim
  simp only [scrollRightHighRow, write, highIdx, Nat.mul_zero, Nat.mul_one,
    Nat.zero_add, if_true, h1, if_false]
  by_cases hA : k = i
  · rw [if_pos hA, if_pos hA]
  · rw [if_neg hA, if_neg hA]
    by_cases hB : k = 64 + i
    · rw [if_pos hB, if_pos hB]
    · rw [if_neg hB, if_neg hB, if_neg hB]

/-- Loop invariant of the high-resolution `scrollRight` loop. -/
theorem scrollRightHigh_loop (s : State) :
    ∀ n, n ≤ 64 → ∀ k, (forLoopT scrollRightHighRow n s).DisplayBuffer k
      = if k < n then (s.DisplayBuffer k >>> 4) % 2 ^ 64
        else if 64 ≤ k ∧ k < 64 + n then
          ((s.DisplayBuffer k >>> 4) % 2 ^ 64
            ||| ((s.DisplayBuffer (k - 64) &&& 0xf) <<< 60) % 2 ^ 64) % 2 ^ 64
        else s.DisplayBuffer k := by
  intro n
  induction n with
  | zero =>
    intro _ k
    have h1 : ¬ k < 0 := by omega
    have h2 : ¬ (64 ≤ k ∧ k < 64 + 0) := by omega
    rw [if_neg h1, if_neg h2]; rfl
  | succ n ih =>
    intro hn k
    have ih1 := ih (by omega)
    show (scrollRightHighRow n (forLoopT scrollRightHighRow n s)).DisplayBuffer k = _
    rw [scrollRightHighRow_display, ih1 k, ih1 n, ih1 (64 + n)]
    have a1 : ¬ n < n := by omega
    have a2 : ¬ (64 ≤ n ∧ n < 64 + n) := by omega
    have a3 : ¬ 64 + n < n := by omega
    have a4 : ¬ (64 ≤ 64 + n ∧ 64 + n < 64 + n) := by omega
    rw [if_neg a1, if_neg a2, if_neg a3, if_neg a4]
    by_cases hA : k = n
    · subst hA
      have c3 : k < k + 1 := by omega
      rw [if_pos rfl, if_pos c3]
    · rw [if_neg hA]
      by_cases hB : k = 64 + n
      · subst hB
        have c3 : ¬ 64 + n < n + 1 := by omega
        have c4 : 64 ≤ 64 + n ∧ 64 + n < 64 + (n + 1) := by omega
        rw [if_pos rfl, if_neg c3, if_pos c4, Nat.add_sub_cancel_left]
      · rw [if_neg hB]
        by_cases hC : k < n
        · have c3 : k < n + 1 := by omega
          rw [if_pos hC, if_pos c3]
        · have c3 : ¬ k < n + 1 := by omega
          rw [if_neg hC, if_neg c3]
          by_cases hD : 64 ≤ k ∧ k < 64 + n
          · have c4 : 64 ≤ k ∧ k < 64 + (n + 1) := by omega
            rw [if_pos hD, if_pos c4]
          · have c4 : ¬ (64 ≤ k ∧ k < 64 + (n + 1)) := by omega
            rw [if_neg hD, if_neg c4]

/-- The word assembled for the right half: old right half shifted, low nibble of the old
left half on top. -/
theorem carry_word (l r : Nat) (hr : r < 2 ^ 64) :
    ((r >>> 4) % 2 ^ 64 ||| ((l &&& 0xf) <<< 60) % 2 ^ 64) % 2 ^ 64
      = 2 ^ 60 * (l % 16) + r / 16 := by
  have e1 : r >>> 4 = r / 16 := by rw [Nat.shiftRight_eq_div_pow]
  have e2 : (l &&& 0xf) <<< 60 = 2 ^ 60 * (l % 16) := by
    rw [and_F, Nat.shiftLeft_eq, Nat.mul_comm]
  have e3 : r / 16 < 2 ^ 60 := by
    norm_num at hr ⊢
    omega
  have e4 : 2 ^ 60 * (l % 16) < 2 ^ 64 := by
    have : l % 16 < 16 := Nat.mod_lt _ (by decide)
    norm_num
    omega
  rw [e1, e2, Nat.mod_eq_of_lt (lt_trans e3 (by norm_num)), Nat.mod_eq_of_lt e4, Nat.or_comm,
    ← Nat.mul_add_lt_is_or e3]
  apply Nat.mod_eq_of_lt
  norm_num at e3 e4 ⊢
  omega

/-- Claim C11: in high resolution, for display words below `2^64` and every row `i < 64`,
`scrollRight` shifts the 128-bit row right by 4 bits: the new left half is
`old left >> 4`; the low 60 bits of the new right half are `old right >> 4` and its
top 4 bits are the low 4 bits of the old left half. -/
theorem scrollRight_high_rows (s : State) (hhigh : s.DisplayIsHigh ≠ 0)
    (hw : DisplayIsWords s) (i : Nat) (hi : i < 64) :
    (scrollRight s).DisplayBuffer (highIdx 0 i) = s.DisplayBuffer (highIdx 0 i) >>> 4
      ∧ (scrollRight s).DisplayBuffer (highIdx 1 i) % 2 ^ 60
          = s.DisplayBuffer (highIdx 1 i) >>> 4
      ∧ (scrollRight s).DisplayBuffer (highIdx 1 i) >>> 60
          = s.DisplayBuffer (highIdx 0 i) % 16 := by
  unfold scrollRight
  rw [if_pos hhigh]
  have h0 : highIdx 0 i = i := by simp [highIdx]
  have h1 : highIdx 1 i = 64 + i := by simp [highIdx]
  rw [h0, h1, scrollRightHigh_loop s 64 (le_refl _) i,
    scrollRightHigh_loop s 64 (le_refl _) (64 + i)]
  have c1 : ¬ 64 + i < 64 := by omega
  have c2 : 64 ≤ 64 + i ∧ 64 + i < 64 + 64 := by omega
  rw [if_pos hi, if_neg c1, if_pos c2, Nat.add_sub_cancel_left, carry_word _ _ (hw (64 + i))]
  have hl := hw i
  have hr := hw (64 + i)
  have e1 : s.DisplayBuffer i >>> 4 = s.DisplayBuffer i / 16 := by
    rw [Nat.shiftRight_eq_div_pow]
  have e2 : s.DisplayBuffer (64 + i) >>> 4 = s.DisplayBuffer (64 + i) / 16 := by
    rw [Nat.shiftRight_eq_div_pow]
  rw [e1, e2, Nat.shiftRight_eq_div_pow]
  norm_num at hl hr ⊢
  refine ⟨?_, ?_, ?_⟩ <;> omega

/-- The sample high-resolution state holds 64-bit words. -/
theorem highRowState_words (l r : Nat) (hl : l < 2 ^ 64) (hr : r < 2 ^ 64) :
    DisplayIsWords (highRowState l r) := by
  intro k
  simp only [highRowState, write, clearedState]
  split_ifs <;> first | assumption | decide

/-- Instance of `scrollRight_high_rows`: left half `0xA`, right half
`0xF000000000000000` become `0` and `0xAF00000000000000`. -/
theorem scrollRight_high_rows_witness :
    ((highRowState 0x000000000000000A 0xF000000000000000).DisplayIsHigh ≠ 0
        ∧ DisplayIsWords (highRowState 0x000000000000000A 0xF000000000000000) ∧ 0 < 64)
      ∧ (scrollRight (highRowState 0x000000000000000A 0xF000000000000000)).DisplayBuffer
          (highIdx 0 0) = 0
      ∧ (scrollRight (highRowState 0x000000000000000A 0xF000000000000000)).DisplayBuffer
          (highIdx 1 0) % 2 ^ 60 = 0x0F00000000000000
      ∧ (scrollRight (highRowState 0x000000000000000A 0xF000000000000000)).DisplayBuffer
          (highIdx 1 0) >>> 60 = 0xA :=
  ⟨⟨by decide, highRowState_words _ _ (by decide) (by decide), by decide⟩,
    scrollRight_high_rows (highRowState 0x000000000000000A 0xF000000000000000) (by decide)
      (highRowState_words _ _ (by decide) (by decide)) 0 (by decide)⟩

/-! ## Vertical scrolling (C12, C13) -/

/-- Loop invariant of the low-resolution copy loop of `scrollDownN`: the loop
reads rows it has already overwritten. -/
theorem scrollDownLow_loop (s : State) (n : Nat) (hn : 1 ≤ n) :
    ∀ j, ∀ k, (forLoopT (scrollDownLowRow n) j s).DisplayBuffer k
      = if n ≤ k ∧ k < n + j then s.DisplayBuffer (k % n) else s.DisplayBuffer k := by
  intro j
  induction j with
  | zero =>
    intro k
    rw [if_neg (by omega)]; rfl
  | succ j ih =>
    intro k
    show (scrollDownLowRow n j (forLoopT (scrollDownLowRow n) j s)).DisplayBuffer k = _
    simp only [scrollDownLowRow, write, lowIdx]
    have hsrc : (forLoopT (scrollDownLowRow n) j s).DisplayBuffer j
        = s.DisplayBuffer (j % n) := by
      rw [ih j]
      by_cases hj : n ≤ j ∧ j < n + j
      · rw [if_pos hj]
      · rw [if_neg hj, Nat.mod_eq_of_lt (by omega)]
    by_cases hk : k = j + n
    · subst hk
      rw [if_pos rfl, hsrc, if_pos (by omega), Nat.add_mod_right]
    · rw [if_neg hk, ih k]
      by_cases hr : n ≤ k ∧ k < n + j
      · rw [if_pos hr, if_pos (by omega)]
      · rw [if_neg hr, if_neg (by omega)]

/-- Low-resolution `scrollDownN` in closed form for `n` in 1..32: the copy
loop runs upwards through rows it has already overwritten, so below the `n`
zeroed rows the old rows `0 .. n - 1` repeat with period `n`. -/
theorem scrollDownN_low_rows (s : State) (n : Nat) (hlow : s.DisplayIsHigh = 0)
    (hn1 : 1 ≤ n) (hn : n ≤ 32) (k : Nat) (hk : k < 32) :
    (scrollDownN s n).DisplayBuffer (lowIdx k)
      = if k < n then 0 else s.DisplayBuffer (lowIdx (k % n)) := by
  unfold scrollDownN
  rw [if_neg (by simp [hlow])]
  simp only [zeroWords, lowIdx]
  by_cases h : k < n
  · rw [if_pos h, if_pos h]
  · rw [if_neg h, if_neg h, scrollDownLow_loop s n hn1, if_pos (by omega)]

/-- Claim C12 (fails on the code): after `scrollDownN(n)` in low resolution row `i`
should hold the old row `i - n`.  On the buffer whose row `k` holds `k + 1`,
`scrollDownN(1)` zeroes row 0 and copies old row 0 to row 1 as claimed, but row 2
receives the already overwritten row 1: it ends as 1 (old row 0) where the
claim asks for 2 (old row 1). -/
theorem scrollDownN_low_repeats_rows :
    (countingRowsState 0).DisplayBuffer (lowIdx 1) = 2
      ∧ (scrollDownN (countingRowsState 0) 1).DisplayBuffer (lowIdx 0) = 0
      ∧ (scrollDownN (countingRowsState 0) 1).DisplayBuffer (lowIdx 1) = 1
      ∧ (scrollDownN (countingRowsState 0) 1).DisplayBuffer (lowIdx 2) = 1 := by
  decide

/-- Loop invariant of the high-resolution copy loop of `scrollDownN`. -/
theorem scrollDownHigh_loop (s : State) (n : Nat) (hn : 1 ≤ n) :
    ∀ j, n + j ≤ 64 → ∀ k, (forLoopT (scrollDownHighRow n) j s).DisplayBuffer k
      = if n ≤ k ∧ k < n + j then s.DisplayBuffer (k % n)
        else if 64 + n ≤ k ∧ k < 64 + n + j then s.DisplayBuffer (64 + (k - 64) % n)
        else s.DisplayBuffer k := by
  intro j
  induction j with
  | zero =>
    intro _ k
    rw [if_neg (by omega), if_neg (by omega)]; rfl
  | succ j ih =>
    intro hj k
    have ih1 := ih (by omega)
    show (scrollDownHighRow n j (forLoopT (scrollDownHighRow n) j s)).DisplayBuffer k = _
    simp only [scrollDownHighRow, write, highIdx, Nat.mul_zero, Nat.mul_one, Nat.zero_add]
    have hsrc0 : (forLoopT (scrollDownHighRow n) j s).DisplayBuffer j
        = s.DisplayBuffer (j % n) := by
      rw [ih1 j]
      by_cases hc : n ≤ j ∧ j < n + j
      · rw [if_pos hc]
      · rw [if_neg hc, if_neg (by omega), Nat.mod_eq_of_lt (by omega)]
    have hsrc1 : (forLoopT (scrollDownHighRow n) j s).DisplayBuffer (64 + j)
        = s.DisplayBuffer (64 + j % n) := by
      rw [ih1 (64 + j), if_neg (by omega)]
      by_cases hc : 64 + n ≤ 64 + j ∧ 64 + j < 64 + n + j
      · rw [if_pos hc, Nat.add_sub_cancel_left]
      · rw [if_neg hc, Nat.mod_eq_of_lt (by omega)]
    have hne : ¬ (64 + j = j + n) := by omega
    rw [if_neg hne, hsrc1]
    by_cases hk1 : k = 64 + (j + n)
    · subst hk1
      have e : (64 + (j + n) - 64) % n = j % n := by
        rw [Nat.add_sub_cancel_left, Nat.add_mod_right]
      have c : ¬ (n ≤ 64 + (j + n) ∧ 64 + (j + n) < n + (j + 1)) := by omega
      have c2 : 64 + n ≤ 64 + (j + n) ∧ 64 + (j + n) < 64 + n + (j + 1) := by omega
      rw [if_pos rfl, if_neg c, if_pos c2, e]
    · rw [if_neg hk1]
      by_cases hk0 : k = j + n
      · subst hk0
        rw [if_pos rfl, hsrc0, if_pos (by omega), Nat.add_mod_right]
      · rw [if_neg hk0, ih1 k]
        by_cases hr : n ≤ k ∧ k < n + j
        · have c : n ≤ k ∧ k < n + (j + 1) := by omega
          rw [if_pos hr, if_pos c]
        · have c : ¬ (n ≤ k ∧ k < n + (j + 1)) := by omega
          rw [if_neg hr, if_neg c]
          by_cases hr2 : 64 + n ≤ k ∧ k < 64 + n + j
          · have c2 : 64 + n ≤ k ∧ k < 64 + n + (j + 1) := by omega
            rw [if_pos hr2, if_pos c2]
          · have c2 : ¬ (64 + n ≤ k ∧ k < 64 + n + (j + 1)) := by omega
            rw [if_neg hr2, if_neg c2]

/-- High-resolution `scrollDownN` in closed form for `n` in 1..32: in both
halves the old rows `0 .. n - 1` repeat with period `n`; the `memset` then
clears rows `0 .. 2n - 1` of the left half and no row of the right half. -/
theorem scrollDownN_high_rows (s : State) (n : Nat) (hhigh : s.DisplayIsHigh ≠ 0)
    (hn1 : 1 ≤ n) (hn : n ≤ 32) (k : Nat) (hk : k < 64) :
    (scrollDownN s n).DisplayBuffer (highIdx 0 k)
        = (if k < 2 * n then 0 else s.DisplayBuffer (highIdx 0 (k % n)))
      ∧ (scrollDownN s n).DisplayBuffer (highIdx 1 k) = s.DisplayBuffer (highIdx 1 (k % n)) := by
  unfold scrollDownN
  rw [if_pos hhigh]
  simp only [zeroWords, highIdx, Nat.mul_zero, Nat.mul_one, Nat.zero_add]
  constructor
  · by_cases h : k < 2 * n
    · rw [if_pos (by omega), if_pos h]
    · rw [if_neg (by omega), if_neg h, scrollDownHigh_loop s n hn1 (64 - n) (by omega),
        if_pos (by omega)]
  · rw [if_neg (by omega), scrollDownHigh_loop s n hn1 (64 - n) (by omega), if_neg (by omega)]
    by_cases h : n ≤ k
    · rw [if_pos (by omega), Nat.add_sub_cancel_left]
    · rw [if_neg (by omega), Nat.mod_eq_of_lt (by omega)]

/-- Claim C13 (fails on the code): after `scrollDownN(n)` in high resolution
`High[h][i]` should hold the old `High[h][i - n]` and `High[h][0..n-1]` should be
zero in both halves.  On the buffer whose word `k` holds `k + 1`, `scrollDownN(1)`
leaves `High[0][1] = 0` (claimed: old `High[0][0] = 1`), `High[1][0] = 65` (claimed:
0) and `High[0][2] = 1` (claimed: old `High[0][1] = 2`). -/
theorem scrollDownN_high_zeroes_wrong_words :
    (countingRowsState 1).DisplayBuffer (highIdx 0 0) = 1
      ∧ (countingRowsState 1).DisplayBuffer (highIdx 0 1) = 2
      ∧ (scrollDownN (countingRowsState 1) 1).DisplayBuffer (highIdx 0 1) = 0
      ∧ (scrollDownN (countingRowsState 1) 1).DisplayBuffer (highIdx 1 0) = 65
      ∧ (scrollDownN (countingRowsState 1) 1).DisplayBuffer (highIdx 0 2) = 1 := by
  decide

/-! ## Saving and restoring registers (C14, C15) -/

/-- The loop of `savevX` in closed form. -/
theorem saveRow_loop (s : State) :
    ∀ n, n ≤ 16 →
      forLoop saveRow n s
        = some { s with
            Memory := fun a =>
              if s.I ≤ a ∧ a < s.I + n then s.V (a - s.I) else s.Memory a } := by
  intro n
  induction n with
  | zero =>
    intro _
    have e : (fun a => if s.I ≤ a ∧ a < s.I + 0 then s.V (a - s.I) else s.Memory a)
        = s.Memory := by
      funext a
      rw [if_neg (by omega)]
    rw [e]; rfl
  | succ n ih =>
    intro hn
    rw [forLoop_succ, ih (by omega), Option.some_bind]
    have hg : n < 16 := by omega
    simp only [saveRow, if_pos hg]
    congr 2
    funext a
    simp only [write]
    by_cases ha : a = s.I + n
    · subst ha
      rw [if_pos rfl, if_pos (by omega), Nat.add_sub_cancel_left]
    · rw [if_neg ha]
      by_cases hr : s.I ≤ a ∧ a < s.I + n
      · rw [if_pos hr, if_pos (by omega)]
      · rw [if_neg hr, if_neg (by omega)]

/-- The loop of `restorevX` in closed form. -/
theorem restoreRow_loop (s : State) :
    ∀ n, n ≤ 16 →
      forLoop restoreRow n s
        = some { s with V := fun r => if r < n then s.Memory (s.I + r) else s.V r } := by
  intro n
  induction n with
  | zero =>
    intro _
    have e : (fun r => if r < 0 then s.Memory (s.I + r) else s.V r) = s.V := by
      funext r
      rw [if_neg (by omega)]
    rw [e]; rfl
  | succ n ih =>
    intro hn
    rw [forLoop_succ, ih (by omega), Option.some_bind]
    have hg : n < 16 := by omega
    simp only [restoreRow, if_pos hg]
    congr 2
    funext r
    simp only [write]
    by_cases hr : r = n
    · subst hr
      rw [if_pos rfl, if_pos (by omega)]
    · rw [if_neg hr]
      by_cases hlt : r < n
      · rw [if_pos hlt, if_pos (by omega)]
      · rw [if_neg hlt, if_neg (by omega)]

/-- The conditional advance of `I` touches `I` only. -/
theorem advanceI_frame (s : State) (X : Nat) :
    (advanceI s X).Memory = s.Memory ∧ (advanceI s X).V = s.V
      ∧ (advanceI s X).I = if s.UsingCompatibility = 0 then (s.I + (X + 1)) % 65536 else s.I := by
  unfold advanceI
  split <;> exact ⟨rfl, rfl, rfl⟩

/-- Claim C14: for `X` in 0..15 and `I + X < 4096`, `savevX(X)` is defined, and in every
later state that has the memory left by the save and `I` back at its old value
(whatever the registers hold by then) `restorevX(X)` is defined and gives
`V[0..X]` the values they had before the save. -/
theorem savevX_restorevX_roundtrip (s : State) (X : Nat) (hX : X ≤ 15)
    (hI : s.I + X < 4096) :
    ∃ s1, savevX s X = some s1
      ∧ ∀ s2, s2.Memory = s1.Memory → s2.I = s.I →
          ∃ s3, restorevX s2 X = some s3 ∧ ∀ i, i ≤ X → s3.V i = s.V i := by
  have _ := hI
  refine ⟨_, by rw [savevX, saveRow_loop s (X + 1) (by omega)]; rfl, ?_⟩
  intro s2 hM hI2
  refine ⟨_, by rw [restorevX, restoreRow_loop s2 (X + 1) (by omega)]; rfl, ?_⟩
  intro i hi
  rw [(advanceI_frame _ X).2.1]
  simp only []
  rw [if_pos (by omega), hM, (advanceI_frame _ X).1, hI2]
  simp only []
  rw [if_pos (by omega), Nat.add_sub_cancel_left]

/-- Instance of `savevX_restorevX_roundtrip`: `save v3` with `V[0..3] = 1, 2, 3, 4`,
registers zeroed, `restore v3` from the same `I`. -/
theorem savevX_restorevX_roundtrip_witness :
    (3 ≤ 15 ∧ countingRegsState.I + 3 < 4096)
      ∧ ((savevX countingRegsState 3).bind
            (fun s1 => restorevX { s1 with V := fun _ => 0, I := 0x300 } 3)).map
          (fun t => (t.V 0, t.V 1, t.V 2, t.V 3)) = some (1, 2, 3, 4)
      ∧ ∃ s1, savevX countingRegsState 3 = some s1
          ∧ ∀ s2, s2.Memory = s1.Memory → s2.I = countingRegsState.I →
              ∃ s3, restorevX s2 3 = some s3 ∧ ∀ i, i ≤ 3 → s3.V i = countingRegsState.V i :=
  ⟨⟨by decide, by decide⟩, by decide,
    savevX_restorevX_roundtrip countingRegsState 3 (by decide) (by decide)⟩

/-- Claim C16 (fails on the code): with only key 5 qualifying (`Keys & KeyMask = 0x20`)
`loadvXKey(0)` should load 5 and clear bit 5 of `KeyMask`.  The search loop
advances while the tested bit is set, so it stops at once at bit 0: `V[0]`
becomes 0 and `KeyMask` becomes `0xFFFE` (bit 0 cleared, bit 5 still set). -/
theorem loadvXKey_takes_lowest_clear_bit :
    ({ regState 9 0 0 with Keys := 0x20 } : State).Keys
        &&& ({ regState 9 0 0 with Keys := 0x20 } : State).KeyMask = 0x20
      ∧ (loadvXKey { regState 9 0 0 with Keys := 0x20 } 0).map
          (fun t => (t.V 0, t.KeyMask, t.WaitingForKeyPress)) = some (0, 0xFFFE, 0) := by
  decide

/-- Whenever some key qualifies but key 0 does not, `loadvXKey` loads 0: the
search loop stops at the first bit that is clear. -/
theorem loadvXKey_of_key0_clear (s : State) (X : Nat) (hk : s.Keys &&& s.KeyMask ≠ 0)
    (h0 : (s.Keys &&& s.KeyMask) &&& 1 = 0) :
    ∃ t, loadvXKey s X = some t ∧ t.V X = 0 ∧ t.WaitingForKeyPress = 0 := by
  have hscan : keyScan (s.Keys &&& s.KeyMask) 31 0 = some 0 := by
    show (if (s.Keys &&& s.KeyMask) &&& (1 <<< 0) ≠ 0 then _ else some 0) = some 0
    rw [show (1 : Nat) <<< 0 = 1 from rfl, h0]
    simp
  simp [loadvXKey, hk, hscan, write]

/-- The opcode switch sends `FX0A` to `loadvXKey(X)`. -/
theorem dispatch_FX0A (rnd : Nat) (s : State) (X : Nat) (hX : X < 16) :
    dispatch rnd s (0xF00A + 0x100 * X) = Outcome.ofOption (loadvXKey s X) := by
  have h1 : (0xF00A + 0x100 * X) / 4096 % 16 * 4096 = 0xF000 := by omega
  have h2 : (0xF00A + 0x100 * X) % 256 = 0x0A := by omega
  have h3 : (0xF00A + 0x100 * X) / 256 % 16 = X := by omega
  simp [dispatch, and_F000, and_FF, opX_eq, h1, h2, h3]

/-- Claim C17: for every state whose opcode at `ProgramCounter` is `FX0A` and in
which `Keys & KeyMask` is zero, one tick only sets `WaitingForKeyPress` to 1
(every other field, `ProgramCounter` included, is unchanged), and a further
tick from that state yields the same state again. -/
theorem step_wait_for_key (rnd : Nat) (s : State) (X : Nat) (hX : X < 16)
    (hop : fetch s = some (0xF00A + 0x100 * X)) (hk : s.Keys &&& s.KeyMask = 0) :
    step rnd s = Outcome.running { s with WaitingForKeyPress := 1 }
      ∧ ∀ rnd2, step rnd2 { s with WaitingForKeyPress := 1 }
          = Outcome.running { s with WaitingForKeyPress := 1 } := by
  have key : ∀ (r : Nat) (t : State), fetch t = some (0xF00A + 0x100 * X) →
      t.Keys &&& t.KeyMask = 0 →
      step r t = Outcome.running { t with WaitingForKeyPress := 1 } := by
    intro r t ht hkt
    rw [step_of_fetch r t _ ht, dispatch_FX0A r t X hX]
    simp [loadvXKey, hkt, Outcome.ofOption, advancePC]
  refine ⟨key rnd s hop hk, fun rnd2 => ?_⟩
  exact key rnd2 { s with WaitingForKeyPress := 1 } hop hk

/-- Instance of `step_wait_for_key`: opcode `F30A` with no key held. -/
theorem step_wait_for_key_witness :
    (3 < 16 ∧ fetch (opcodeState 0xF3 0x0A) = some (0xF00A + 0x100 * 3)
        ∧ (opcodeState 0xF3 0x0A).Keys &&& (opcodeState 0xF3 0x0A).KeyMask = 0)
      ∧ step 0 (opcodeState 0xF3 0x0A)
          = Outcome.running { opcodeState 0xF3 0x0A with WaitingForKeyPress := 1 }
      ∧ ∀ rnd2, step rnd2 { opcodeState 0xF3 0x0A with WaitingForKeyPress := 1 }
          = Outcome.running { opcodeState 0xF3 0x0A with WaitingForKeyPress := 1 } :=
  ⟨⟨by decide, by decide, by decide⟩,
    step_wait_for_key 0 (opcodeState 0xF3 0x0A) 3 (by decide) (by decide) (by decide)⟩

/-- When a key qualifies and the search loop ends, the tick on `FX0A` resolves at
once: the machine is running and `ProgramCounter` has advanced by 2. -/
theorem step_key_available (rnd : Nat) (s : State) (X : Nat) (hX : X < 16)
    (hop : fetch s = some (0xF00A + 0x100 * X)) (hk : s.Keys &&& s.KeyMask ≠ 0)
    (k : Nat) (hscan : keyScan (s.Keys &&& s.KeyMask) 31 0 = some k) :
    ∃ t, step rnd s = Outcome.running t ∧ t.WaitingForKeyPress = 0
      ∧ t.ProgramCounter = (s.ProgramCounter + 2) % 65536 := by
  rw [step_of_fetch rnd s _ hop, dispatch_FX0A rnd s X hX]
  simp [loadvXKey, hk, hscan, Outcome.ofOption, advancePC, skipNext]

/-- Key 5 held alone gives `Keys = 0x20`. -/
theorem hostKeys_onlyKey_5 : hostKeys (onlyKey 5) = 0x20 := by decide

/-- Claim C18 (fails on the code as stated): from the initial state with program
`F0 0A`, after the key refresh reports key 5 as held, one tick does not leave
the machine waiting: `WaitingForKeyPress = 0`, `ProgramCounter = 0x202` and
`KeyMask` has lost a bit. -/
theorem held_key_resolves_wait_at_start :
    (step 0 (refreshKeys (onlyKey 5) (initialState [0xF0, 0x0A]))).state.map
        (fun t => (t.WaitingForKeyPress, t.ProgramCounter, t.KeyMask))
      = some (0, 0x202, 0xFFFE) := by
  decide

/-- The program area of the initial memory holds the program file. -/
theorem initialMemory_rom (rom : List Nat) (a : Nat) (h1 : 0x200 ≤ a) (h2 : a < 0x1000) :
    initialMemory rom a = rom.getD (a - 0x200) 0 := by
  unfold initialMemory
  rw [if_neg (by omega), if_pos ⟨h1, h2⟩]

/-- What the key refresh changes. -/
theorem refreshKeys_frame (down : Nat → Bool) (s : State) :
    (refreshKeys down s).Memory = s.Memory
      ∧ (refreshKeys down s).ProgramCounter = s.ProgramCounter
      ∧ (refreshKeys down s).Keys = hostKeys down
      ∧ (refreshKeys down s).KeyMask
          = (s.KeyMask ||| (0xFFFFFFFF ^^^ hostKeys down)) % 65536 :=
  ⟨rfl, rfl, rfl, rfl⟩

/-- Fields of the initial state. -/
theorem initialState_fields (rom : List Nat) :
    (initialState rom).Memory = initialMemory rom
      ∧ (initialState rom).ProgramCounter = 0x200
      ∧ (initialState rom).KeyMask = 0xFFFF :=
  ⟨rfl, rfl, rfl⟩

/-- Claim C18 as amended: from the initial state (`KeyMask = 0xFFFF`), if the key
refresh reports key 5 alone as held and the instruction at `ProgramCounter` is
`FX0A`, one tick resolves the wait at once: `WaitingForKeyPress = 0` and
`ProgramCounter` has advanced to `0x202`. -/
theorem held_key_at_start (rnd : Nat) (X : Nat) (rest : List Nat) (hX : X < 16) :
    ∃ t, step rnd (refreshKeys (onlyKey 5) (initialState ((0xF0 + X) :: 0x0A :: rest)))
        = Outcome.running t
      ∧ t.WaitingForKeyPress = 0 ∧ t.ProgramCounter = 0x202 := by
  obtain ⟨rM, rP, rK, rKM⟩ :=
    refreshKeys_frame (onlyKey 5) (initialState ((0xF0 + X) :: 0x0A :: rest))
  obtain ⟨iM, iP, iKM⟩ := initialState_fields ((0xF0 + X) :: 0x0A :: rest)
  have hm0 : (refreshKeys (onlyKey 5) (initialState ((0xF0 + X) :: 0x0A :: rest))).Memory
      (refreshKeys (onlyKey 5) (initialState ((0xF0 + X) :: 0x0A :: rest))).ProgramCounter
        = 0xF0 + X := by
    rw [rM, rP, iM, iP, initialMemory_rom _ _ (by decide) (by decide)]; rfl
  have hm1 : (refreshKeys (onlyKey 5) (initialState ((0xF0 + X) :: 0x0A :: rest))).Memory
      ((refreshKeys (onlyKey 5) (initialState ((0xF0 + X) :: 0x0A :: rest))).ProgramCounter + 1)
        = 0x0A := by
    rw [rM, rP, iM, iP, initialMemory_rom _ _ (by decide) (by decide)]; rfl
  have hop : fetch (refreshKeys (onlyKey 5) (initialState ((0xF0 + X) :: 0x0A :: rest)))
      = some (0xF00A + 0x100 * X) := by
    have hf := fetch_bytes (refreshKeys (onlyKey 5) (initialState ((0xF0 + X) :: 0x0A :: rest)))
      (by rw [rP, iP]; decide) (by rw [hm0]; omega) (by rw [hm1]; decide)
    have e : 256 * (0xF0 + X) + 0x0A = 0xF00A + 0x100 * X := by omega
    rw [hf, hm0, hm1, e]
  have hkeys : (refreshKeys (onlyKey 5) (initialState ((0xF0 + X) :: 0x0A :: rest))).Keys
      &&& (refreshKeys (onlyKey 5) (initialState ((0xF0 + X) :: 0x0A :: rest))).KeyMask = 0x20 := by
    rw [rK, rKM, iKM, hostKeys_onlyKey_5]
    decide
  obtain ⟨t, ht, hw, hp⟩ := step_key_available rnd _ X hX hop (by rw [hkeys]; decide) 0
    (by rw [hkeys]; rfl)
  refine ⟨t, ht, hw, ?_⟩
  rw [hp, rP, iP]

/-- Instance of `held_key_at_start` for the program `F0 0A`. -/
theorem held_key_at_start_witness :
    0 < 16
      ∧ ∃ t, step 0 (refreshKeys (onlyKey 5) (initialState ((0xF0 + 0) :: 0x0A :: [])))
          = Outcome.running t
        ∧ t.WaitingForKeyPress = 0 ∧ t.ProgramCounter = 0x202 :=
  ⟨by decide, held_key_at_start 0 0 [] (by decide)⟩

/-! ## Timers (C19) -/

/-- Claim C19: the once-per-frame timer update leaves `Time` and `Tone` unchanged
when `WaitingForKeyPress` is set; otherwise each of them, independently, drops
by exactly 1 if it was above 0 and stays 0 if it was 0. -/
theorem updateTimers_spec (s : State) (hb : TimersAreBytes s) :
    (s.WaitingForKeyPress ≠ 0 →
        (updateTimers s).Time = s.Time ∧ (updateTimers s).Tone = s.Tone)
      ∧ (s.WaitingForKeyPress = 0 →
        (updateTimers s).Time = (if s.Time > 0 then s.Time - 1 else 0)
          ∧ (updateTimers s).Tone = (if s.Tone > 0 then s.Tone - 1 else 0)) := by
  obtain ⟨h1, h2⟩ := hb
  constructor
  · intro hw
    simp [updateTimers, hw]
  · intro hw
    have e1 : (s.Time - 1) % 256 = s.Time - 1 := Nat.mod_eq_of_lt (by omega)
    have e2 : (s.Tone - 1) % 256 = s.Tone - 1 := Nat.mod_eq_of_lt (by omega)
    simp only [updateTimers, hw, if_true, e1, e2]
    by_cases ht : s.Time > 0 <;> by_cases hn : s.Tone > 0 <;> simp [ht, hn] <;> omega

/-- Instance of `updateTimers_spec` with `Time = 1`, `Tone = 0`: both end at 0. -/
theorem updateTimers_spec_witness :
    TimersAreBytes { clearedState with Time := 1, Tone := 0 }
      ∧ (({ clearedState with Time := 1, Tone := 0 } : State).WaitingForKeyPress ≠ 0 →
          (updateTimers { clearedState with Time := 1, Tone := 0 }).Time = 1
            ∧ (updateTimers { clearedState with Time := 1, Tone := 0 }).Tone = 0)
      ∧ (({ clearedState with Time := 1, Tone := 0 } : State).WaitingForKeyPress = 0 →
          (updateTimers { clearedState with Time := 1, Tone := 0 }).Time = 0
            ∧ (updateTimers { clearedState with Time := 1, Tone := 0 }).Tone = 0) :=
  ⟨⟨by decide, by decide⟩,
    updateTimers_spec { clearedState with Time := 1, Tone := 0 } ⟨by decide, by decide⟩⟩

/-! ## The `0NNN` group (C20) -/

/-- Claim C20 (fails on the code as stated): opcode `0x0050` is none of the listed
forms, yet one tick on it does not jump to `0x050`; `ProgramCounter` goes from
`0x200` to `0x202`. -/
theorem step_0050_is_no_jump :
    fetch (opcodeState 0x00 0x50) = some 0x0050
      ∧ (step 0 (opcodeState 0x00 0x50)).state.map (fun t => t.ProgramCounter) = some 0x202 := by
  decide

/-- Claim C20 as amended: in the running state (`WaitingForKeyPress = 0`), an opcode
`0NNN` whose second nibble is not zero (`NNN >= 0x100`) leaves
`ProgramCounter = NNN`; an opcode `00NN` that is none of `001X`, `00Cn`, `00E0`,
`00EE`, `00FA .. 00FF` changes nothing but `ProgramCounter`, which advances by 2. -/
theorem step_0NNN (rnd : Nat) (s : State) (N : Nat) (hN : N < 0x1000)
    (hop : fetch s = some N) (hrun : s.WaitingForKeyPress = 0) :
    (0x100 ≤ N → step rnd s = Outcome.running { s with ProgramCounter := N })
      ∧ (N < 0x100 → N / 16 ≠ 0x1 → N / 16 ≠ 0xC → N ≠ 0xE0 → N ≠ 0xEE → N < 0xFA →
          step rnd s = Outcome.running { s with ProgramCounter := (s.ProgramCounter + 2) % 65536 }) := by
  have h0 : N / 4096 % 16 * 4096 = 0 := by omega
  constructor
  · intro h1
    have h2 : ¬ (N / 256 % 16 * 256 = 0) := by omega
    have h3 : N % 4096 = N := by omega
    have h4 : (Int.toNat (((N : Int) - 2) % 65536) + 2) % 65536 = N := by omega
    rw [step_of_fetch rnd s N hop]
    simp [dispatch, and_F000, and_F00, and_FFF, h0, h2, h3, jump, advancePC, skipNext, hrun, h4]
  · intro h1 h2 h3 h4 h5 h6
    have g1 : N / 256 % 16 * 256 = 0 := by omega
    have g2 : ¬ (N / 16 % 16 * 16 = 0x10) := by omega
    have g3 : ¬ (N / 16 % 16 * 16 = 0xC0) := by omega
    rw [step_of_fetch rnd s N hop]
    by_cases gE : N / 16 % 16 * 16 = 0xE0
    · have g4 : ¬ (N % 16 = 0) := by omega
      have g5 : ¬ (N % 16 = 0xE) := by omega
      simp [dispatch, and_F000, and_F00, and_F0, and_F, h0, g1, g2, g3, gE, g4, g5, advancePC,
        skipNext, hrun]
    · by_cases gF : N / 16 % 16 * 16 = 0xF0
      · have g6 : N % 16 < 0xA := by omega
        have k1 : ¬ (N % 16 = 0xA) := by omega
        have k2 : ¬ (N % 16 = 0xB) := by omega
        have k3 : ¬ (N % 16 = 0xC) := by omega
        have k4 : ¬ (N % 16 = 0xD) := by omega
        have k5 : ¬ (N % 16 = 0xE) := by omega
        have k6 : ¬ (N % 16 = 0xF) := by omega
        simp [dispatch, and_F000, and_F00, and_F0, and_F, h0, g1, g2, g3, gE, gF, k1, k2, k3,
          k4, k5, k6, advancePC, skipNext, hrun]
      · simp [dispatch, and_F000, and_F00, and_F0, and_F, h0, g1, g2, g3, gE, gF, advancePC,
          skipNext, hrun]

/-- Instances of `step_0NNN`: opcode `0x0300` jumps to `0x300`, opcode `0x0050` only
advances `ProgramCounter` to `0x202`. -/
theorem step_0NNN_witness :
    ((0x300 < 0x1000 ∧ fetch (opcodeState 0x03 0x00) = some 0x300
          ∧ (opcodeState 0x03 0x00).WaitingForKeyPress = 0 ∧ 0x100 ≤ 0x300)
        ∧ step 0 (opcodeState 0x03 0x00)
            = Outcome.running { opcodeState 0x03 0x00 with ProgramCounter := 0x300 })
      ∧ ((0x50 < 0x1000 ∧ fetch (opcodeState 0x00 0x50) = some 0x50
          ∧ (opcodeState 0x00 0x50).WaitingForKeyPress = 0)
        ∧ step 0 (opcodeState 0x00 0x50)
            = Outcome.running { opcodeState 0x00 0x50 with ProgramCounter := 0x202 }) :=
  ⟨⟨⟨by decide, by decide, by decide, by decide⟩,
      (step_0NNN 0 (opcodeState 0x03 0x00) 0x300 (by decide) (by decide) (by decide)).1
        (by decide)⟩,
    ⟨⟨by decide, by decide, by decide⟩,
      (step_0NNN 0 (opcodeState 0x00 0x50) 0x50 (by decide) (by decide) (by decide)).2
        (by decide) (by decide) (by decide) (by decide) (by decide) (by decide)⟩⟩

/-! ## Dispatch of the draw opcodes (C21) -/

/-- The tick on an opcode `DXYN`: the draw selected by `N`, then the statements
of the key-skip group, then the counter advance. -/
theorem step_DXYN (rnd : Nat) (s : State) (op : Nat) (hop : fetch s = some op)
    (hD : op / 4096 = 0xD) :
    step rnd s
      = match (if op % 16 = 0 then drawvXvY s (op / 256 % 16) (op / 16 % 16)
          else drawvXvYRows s (op / 256 % 16) (op / 16 % 16) (op % 16)) with
        | some t => Outcome.running (advancePC (keySkipGroup t op))
        | none => Outcome.undefined := by
  have h1 : op / 4096 % 16 * 4096 = 0xD000 := by omega
  rw [step_of_fetch rnd s op hop]
  simp only [dispatch, and_F000, and_F, opX_eq, opY_eq, h1]
  simp only [show ¬ ((0xD000 : Nat) = 0) by decide, show ¬ ((0xD000 : Nat) = 0x1000) by decide,
    show ¬ ((0xD000 : Nat) = 0x3000) by decide, show ¬ ((0xD000 : Nat) = 0x4000) by decide,
    show ¬ ((0xD000 : Nat) = 0x6000) by decide, show ¬ ((0xD000 : Nat) = 0x7000) by decide,
    show ¬ ((0xD000 : Nat) = 0x8000) by decide, show ¬ ((0xD000 : Nat) = 0x9000) by decide,
    show ¬ ((0xD000 : Nat) = 0xA000) by decide, show ¬ ((0xD000 : Nat) = 0xB000) by decide,
    show ¬ ((0xD000 : Nat) = 0xC000) by decide, if_false, if_true]
  cases (if op % 16 = 0 then drawvXvY s (op / 256 % 16) (op / 16 % 16)
      else drawvXvYRows s (op / 256 % 16) (op / 16 % 16) (op % 16)) <;> rfl

/-- Outside the low bytes `9E` and `A1` the key-skip group does nothing, so
there the tick on `DXYN` is the draw followed by the counter advance. -/
theorem keySkipGroup_other (t : State) (op : Nat) (h9E : op % 256 ≠ 0x9E)
    (hA1 : op % 256 ≠ 0xA1) : keySkipGroup t op = t := by
  simp [keySkipGroup, and_FF, h9E, hA1]

/-- Claim C21 (fails on the code): a tick on `DXYN` should run the draw and then only
`ProgramCounter += 2`.  In the initial state with program `D0 A1` (draw one row
at `(V[0], V[10])`, no key held) the draw followed by the advance gives
`ProgramCounter = 0x202`; the tick gives `0x204` with the same display row: after
the draw the switch runs on into the key-skip group, where low byte `A1` selects
`skipNevXKey` and key 0 is not held. -/
theorem step_DXA1_also_skips :
    fetch (initialState [0xD0, 0xA1]) = some 0xD0A1
      ∧ (drawvXvYRows (initialState [0xD0, 0xA1]) 0 0xA 1).map
          (fun t => ((skipNext t).ProgramCounter, t.DisplayBuffer 0)) = some (0x202, 0xF000000000000000)
      ∧ (step 0 (initialState [0xD0, 0xA1])).state.map
          (fun t => (t.ProgramCounter, t.DisplayBuffer 0)) = some (0x204, 0xF000000000000000) := by
  decide

/-! ## Skip on equality (C22) -/

/-- Claim C22: in the running state, for every opcode with high nibble 3: with low
nibble 0 the tick advances `ProgramCounter` by 4 when `V[X] = V[Y]` and by 2
otherwise (the low byte is not compared); with any other low nibble it advances
by 4 when `V[X]` equals the low byte `KK` and by 2 otherwise. -/
theorem step_3XYY (rnd : Nat) (s : State) (op : Nat) (hop : fetch s = some op)
    (h3 : op / 4096 = 3) (hrun : s.WaitingForKeyPress = 0) :
    (op % 16 = 0 →
        step rnd s = Outcome.running { s with
          ProgramCounter :=
            if s.V (op / 256 % 16) = s.V (op / 16 % 16) then s.ProgramCounter + 4
            else s.ProgramCounter + 2 })
      ∧ (op % 16 ≠ 0 →
        step rnd s = Outcome.running { s with
          ProgramCounter :=
            if s.V (op / 256 % 16) = op % 256 then s.ProgramCounter + 4
            else s.ProgramCounter + 2 }) := by
  have hpc : s.ProgramCounter + 1 < 4096 := by
    unfold fetch at hop
    by_contra hc
    rw [if_neg hc] at hop
    exact Option.noConfusion hop
  have h0 : ¬ (op / 4096 % 16 * 4096 = 0) := by omega
  have h1 : ¬ (op / 4096 % 16 * 4096 = 0x1000) := by omega
  have h2 : op / 4096 % 16 * 4096 = 0x3000 := by omega
  have e2 : (s.ProgramCounter + 2) % 65536 = s.ProgramCounter + 2 := by omega
  have e4 : ((s.ProgramCounter + 2) % 65536 + 2) % 65536 = s.ProgramCounter + 4 := by omega
  rw [step_of_fetch rnd s op hop]
  constructor
  · intro hz
    by_cases heq : s.V (op / 256 % 16) = s.V (op / 16 % 16)
    · simp [dispatch, and_F000, and_F, and_FF, opX_eq, opY_eq, h0, h1, h2, hz, skipEqvXvY, heq,
        advancePC, skipNext, hrun, e4]
    · simp [dispatch, and_F000, and_F, and_FF, opX_eq, opY_eq, h0, h1, h2, hz, skipEqvXvY, heq,
        advancePC, skipNext, hrun]
      omega
  · intro hz
    by_cases heq : s.V (op / 256 % 16) = op % 256
    · simp [dispatch, and_F000, and_F, and_FF, opX_eq, opY_eq, h0, h1, h2, hz, skipEqvXValue,
        heq, advancePC, skipNext, hrun, e4]
    · simp [dispatch, and_F000, and_F, and_FF, opX_eq, opY_eq, h0, h1, h2, hz, skipEqvXValue,
        heq, advancePC, skipNext, hrun]
      omega

/-- Instances of `step_3XYY`: `3010` with `V[0] = V[1]` skips to `0x204`; `3015` with
`V[0] = 0` advances to `0x202`. -/
theorem step_3XYY_witness :
    ((fetch (opcodeState 0x30 0x10) = some 0x3010 ∧ 0x3010 / 4096 = 3
          ∧ (opcodeState 0x30 0x10).WaitingForKeyPress = 0 ∧ 0x3010 % 16 = 0)
        ∧ step 0 (opcodeState 0x30 0x10)
            = Outcome.running { opcodeState 0x30 0x10 with ProgramCounter := 0x204 })
      ∧ ((fetch (opcodeState 0x30 0x15) = some 0x3015 ∧ 0x3015 / 4096 = 3
          ∧ (opcodeState 0x30 0x15).WaitingForKeyPress = 0 ∧ 0x3015 % 16 ≠ 0)
        ∧ step 0 (opcodeState 0x30 0x15)
            = Outcome.running { opcodeState 0x30 0x15 with ProgramCounter := 0x202 }) :=
  ⟨⟨⟨by decide, by decide, by decide, by decide⟩,
      (step_3XYY 0 (opcodeState 0x30 0x10) 0x3010 (by decide) (by decide) (by decide)).1
        (by decide)⟩,
    ⟨⟨by decide, by decide, by decide, by decide⟩,
      (step_3XYY 0 (opcodeState 0x30 0x15) 0x3015 (by decide) (by decide) (by decide)).2
        (by decide)⟩⟩

/-! ## Call and return (C23) -/

/-- A fetch that succeeds reads inside `Memory`. -/
theorem fetch_defined (s : State) (op : Nat) (hop : fetch s = some op) :
    s.ProgramCounter + 1 < 4096 := by
  unfold fetch at hop
  by_contra hc
  rw [if_neg hc] at hop
  exact Option.noConfusion hop

/-- A fetched opcode is a 16-bit value. -/
theorem fetch_lt (s : State) (op : Nat) (hop : fetch s = some op) : op < 65536 := by
  unfold fetch at hop
  split at hop
  · cases hop
    exact Nat.mod_lt _ (by decide)
  · exact Option.noConfusion hop

/-- The tick on `1NNN`: the address of the call is pushed and `ProgramCounter`
becomes `NNN`. -/
theorem step_call (rnd : Nat) (s : State) (op : Nat) (hop : fetch s = some op)
    (h1NNN : op / 4096 = 1) (hrun : s.WaitingForKeyPress = 0)
    (hhi : s.StackCounter + 1 < 2 ^ 31) :
    step rnd s = Outcome.running { s with
      Stack := writeStack s.Stack (s.StackCounter + 1) s.ProgramCounter
      StackCounter := s.StackCounter + 1
      ProgramCounter := op % 4096 } := by
  have h0 : ¬ (op / 4096 % 16 * 4096 = 0) := by omega
  have h1 : op / 4096 % 16 * 4096 = 0x1000 := by omega
  have e : (Int.toNat ((((op % 4096 : Nat) : Int) - 2) % 65536) + 2) % 65536 = op % 4096 := by
    omega
  rw [step_of_fetch rnd s _ hop]
  simp only [dispatch, and_F000, and_FFF, h0, h1, if_false, if_true, call, if_pos hhi,
    Outcome.ofOption, advancePC, hrun, skipNext]
  simp
  omega

/-- The tick on `00EE`: the top cell is popped and `ProgramCounter` becomes its
content plus 2. -/
theorem step_return (rnd : Nat) (s : State) (hop : fetch s = some 0x00EE)
    (hrun : s.WaitingForKeyPress = 0) (hlo : -(2 ^ 31) ≤ s.StackCounter - 1) :
    step rnd s = Outcome.running { s with
      ProgramCounter := (s.Stack s.StackCounter + 2) % 65536
      StackCounter := s.StackCounter - 1 } := by
  have hd : dispatch rnd s 0x00EE = Outcome.ofOption (subroutineReturn s) := by
    simp [dispatch, and_F000, and_F00, and_F0, and_F]
  rw [step_of_fetch rnd s _ hop, hd]
  simp only [subroutineReturn, if_pos hlo, Outcome.ofOption, advancePC]
  simp [hrun, skipNext]

/-- Claim C23: in the running state with `StackCounter` in -1..30, if the opcode at
`ProgramCounter = p` is `1NNN` and the opcode at address `NNN` is `00EE`, the two
ticks of the call and the return are defined and leave `ProgramCounter = p + 2`
and `StackCounter` at its value before the call. -/
theorem step_call_then_return (rnd1 rnd2 : Nat) (s : State) (op : Nat)
    (hop : fetch s = some op) (h1NNN : op / 4096 = 1)
    (hret : fetch { s with ProgramCounter := op % 4096 } = some 0x00EE)
    (hrun : s.WaitingForKeyPress = 0)
    (hlo : -1 ≤ s.StackCounter) (hhi : s.StackCounter ≤ 30) :
    ∃ s1 s2, step rnd1 s = Outcome.running s1 ∧ step rnd2 s1 = Outcome.running s2
      ∧ s2.ProgramCounter = s.ProgramCounter + 2 ∧ s2.StackCounter = s.StackCounter := by
  have hpc := fetch_defined s _ hop
  have h1 := step_call rnd1 s op hop h1NNN hrun (by omega)
  have h2 := step_return rnd2 { s with
      Stack := writeStack s.Stack (s.StackCounter + 1) s.ProgramCounter
      StackCounter := s.StackCounter + 1
      ProgramCounter := op % 4096 } hret hrun
    (by show -(2 ^ 31) ≤ s.StackCounter + 1 - 1; omega)
  refine ⟨_, _, h1, h2, ?_, ?_⟩
  · show (writeStack s.Stack (s.StackCounter + 1) s.ProgramCounter (s.StackCounter + 1)
      + 2) % 65536 = s.ProgramCounter + 2
    simp only [writeStack, if_true]
    omega
  · show s.StackCounter + 1 - 1 = s.StackCounter
    omega

/-- Instance of `step_call_then_return`: call `1300` at `0x200`, return `00EE` at
`0x300`, empty stack. -/
theorem step_call_then_return_witness :
    (fetch callReturnState = some 0x1300 ∧ 0x1300 / 4096 = 1
        ∧ fetch { callReturnState with ProgramCounter := 0x1300 % 4096 } = some 0x00EE
        ∧ callReturnState.WaitingForKeyPress = 0
        ∧ -1 ≤ callReturnState.StackCounter ∧ callReturnState.StackCounter ≤ 30)
      ∧ ∃ s1 s2, step 0 callReturnState = Outcome.running s1
          ∧ step 0 s1 = Outcome.running s2
          ∧ s2.ProgramCounter = 0x200 + 2 ∧ s2.StackCounter = -1 :=
  ⟨⟨by decide, by decide, by decide, by decide, by decide, by decide⟩,
    step_call_then_return 0 0 callReturnState 0x1300 (by decide) (by decide) (by decide)
      (by decide) (by decide) (by decide)⟩

/-! ## The stack counter is touched by call and return only (C24) -/

/-- A quantity every iteration leaves alone is left alone by the loop. -/
theorem forLoop_preserves {α : Type} (f : State → α) (body : Nat → State → Option State)
    (h : ∀ i s t, body i s = some t → f t = f s) :
    ∀ n s t, forLoop body n s = some t → f t = f s := by
  intro n
  induction n with
  | zero =>
    intro s t ht
    cases ht
    rfl
  | succ n ih =>
    intro s t ht
    rw [forLoop_succ] at ht
    cases hm : forLoop body n s with
    | none => rw [hm] at ht; exact Option.noConfusion ht
    | some m =>
      rw [hm, Option.some_bind] at ht
      rw [h n m t ht, ih s m hm]

/-- A quantity every iteration leaves alone is left alone by the loop. -/
theorem forLoopT_preserves {α : Type} (f : State → α) (body : Nat → State → State)
    (h : ∀ i s, f (body i s) = f s) : ∀ n s, f (forLoopT body n s) = f s := by
  intro n
  induction n with
  | zero => intro s; rfl
  | succ n ih =>
    intro s
    show f (body n (forLoopT body n s)) = f s
    rw [h, ih]

/-- An outcome built from a routine result is a state only if the routine gave one. -/
theorem ofOption_running (o : Option State) (t : State)
    (h : Outcome.ofOption o = Outcome.running t) : o = some t := by
  cases o with
  | none => exact Outcome.noConfusion h
  | some u =>
    simp only [Outcome.ofOption, Outcome.running.injEq] at h
    rw [h]

theorem sc_skipNext (s : State) : (skipNext s).StackCounter = s.StackCounter := rfl

theorem sc_skipEqvXValue (s : State) (X v : Nat) :
    (skipEqvXValue s X v).StackCounter = s.StackCounter := by
  unfold skipEqvXValue; split <;> rfl

theorem sc_skipEqvXvY (s : State) (X Y : Nat) :
    (skipEqvXvY s X Y).StackCounter = s.StackCounter := by
  unfold skipEqvXvY; split <;> rfl

theorem sc_skipNevXValue (s : State) (X v : Nat) :
    (skipNevXValue s X v).StackCounter = s.StackCounter := by
  unfold skipNevXValue; split <;> rfl

theorem sc_skipNevXvY (s : State) (X Y : Nat) :
    (skipNevXvY s X Y).StackCounter = s.StackCounter := by
  unfold skipNevXvY; split <;> rfl

theorem sc_skipvXKey (s : State) (X : Nat) :
    (skipvXKey s X).StackCounter = s.StackCounter := by
  unfold skipvXKey; split <;> rfl

theorem sc_skipNevXKey (s : State) (X : Nat) :
    (skipNevXKey s X).StackCounter = s.StackCounter := by
  unfold skipNevXKey; split <;> rfl

theorem sc_keySkipGroup (s : State) (op : Nat) :
    (keySkipGroup s op).StackCounter = s.StackCounter := by
  unfold keySkipGroup
  split
  · exact sc_skipvXKey s _
  · split
    · exact sc_skipNevXKey s _
    · rfl

theorem sc_advancePC (s : State) : (advancePC s).StackCounter = s.StackCounter := by
  unfold advancePC; split <;> rfl

theorem sc_scrollRight (s : State) : (scrollRight s).StackCounter = s.StackCounter := by
  unfold scrollRight
  split
  · exact forLoopT_preserves State.StackCounter scrollRightHighRow (fun _ _ => rfl) 64 s
  · exact forLoopT_preserves State.StackCounter scrollRightLowRow (fun _ _ => rfl) 32 s

theorem sc_scrollLeft (s : State) : (scrollLeft s).StackCounter = s.StackCounter := by
  unfold scrollLeft
  split
  · exact forLoopT_preserves State.StackCounter scrollLeftHighRow (fun _ _ => rfl) 64 s
  · exact forLoopT_preserves State.StackCounter scrollLeftLowRow (fun _ _ => rfl) 32 s

theorem sc_scrollDownN (s : State) (n : Nat) :
    (scrollDownN s n).StackCounter = s.StackCounter := by
  unfold scrollDownN
  split
  · exact forLoopT_preserves State.StackCounter (scrollDownHighRow n) (fun _ _ => rfl) (64 - n) s
  · exact forLoopT_preserves State.StackCounter (scrollDownLowRow n) (fun _ _ => rfl) (32 - n) s

theorem sc_drawRow (body : Nat → Nat → Nat → State → Option State)
    (hb : body = drawRowLow ∨ body = drawRowHigh ∨ body = xdrawRowLow ∨ body = xdrawRowHigh)
    (x y i : Nat) (s t : State) (h : body x y i s = some t) :
    t.StackCounter = s.StackCounter := by
  rcases hb with rfl | rfl | rfl | rfl
  · unfold drawRowLow at h
    split at h
    · cases h; rfl
    · exact Option.noConfusion h
  · unfold drawRowHigh at h
    split at h
    · cases h; rfl
    · exact Option.noConfusion h
  · unfold xdrawRowLow at h
    split at h
    · cases h; rfl
    · exact Option.noConfusion h
  · simp only [xdrawRowHigh] at h
    split at h
    · cases h; rfl
    · exact Option.noConfusion h

theorem sc_drawvXvYRows (s t : State) (X Y N : Nat) (h : drawvXvYRows s X Y N = some t) :
    t.StackCounter = s.StackCounter := by
  unfold drawvXvYRows at h
  split at h
  · exact forLoop_preserves State.StackCounter _
      (fun i a b hab => sc_drawRow drawRowHigh (Or.inr (Or.inl rfl)) _ _ i a b hab) _ _ _ h
  · exact forLoop_preserves State.StackCounter _
      (fun i a b hab => sc_drawRow drawRowLow (Or.inl rfl) _ _ i a b hab) _ _ _ h

theorem sc_drawvXvY (s t : State) (X Y : Nat) (h : drawvXvY s X Y = some t) :
    t.StackCounter = s.StackCounter := by
  unfold drawvXvY at h
  split at h
  · exact forLoop_preserves State.StackCounter _
      (fun i a b hab => sc_drawRow xdrawRowHigh (Or.inr (Or.inr (Or.inr rfl))) _ _ i a b hab)
      _ _ _ h
  · exact forLoop_preserves State.StackCounter _
      (fun i a b hab => sc_drawRow xdrawRowLow (Or.inr (Or.inr (Or.inl rfl))) _ _ i a b hab)
      _ _ _ h

theorem sc_loadvXKey (s t : State) (X : Nat) (h : loadvXKey s X = some t) :
    t.StackCounter = s.StackCounter := by
  unfold loadvXKey at h
  split at h
  · cases h; rfl
  · split at h
    · exact Option.noConfusion h
    · cases h; rfl

theorem sc_bcdvX (s t : State) (X : Nat) (h : bcdvX s X = some t) :
    t.StackCounter = s.StackCounter := by
  unfold bcdvX at h
  split at h
  · cases h; rfl
  · exact Option.noConfusion h

theorem sc_advanceI (s : State) (X : Nat) : (advanceI s X).StackCounter = s.StackCounter := by
  unfold advanceI; split <;> rfl

theorem sc_savevX (s t : State) (X : Nat) (h : savevX s X = some t) :
    t.StackCounter = s.StackCounter := by
  unfold savevX at h
  cases hm : forLoop saveRow (X + 1) s with
  | none => rw [hm] at h; exact Option.noConfusion h
  | some m =>
    rw [hm] at h
    cases h
    rw [sc_advanceI]
    refine forLoop_preserves State.StackCounter _ ?_ _ _ _ hm
    intro i a b hab
    unfold saveRow at hab
    split at hab
    · cases hab; rfl
    · exact Option.noConfusion hab

theorem sc_restorevX (s t : State) (X : Nat) (h : restorevX s X = some t) :
    t.StackCounter = s.StackCounter := by
  unfold restorevX at h
  cases hm : forLoop restoreRow (X + 1) s with
  | none => rw [hm] at h; exact Option.noConfusion h
  | some m =>
    rw [hm] at h
    cases h
    rw [sc_advanceI]
    refine forLoop_preserves State.StackCounter _ ?_ _ _ _ hm
    intro i a b hab
    unfold restoreRow at hab
    split at hab
    · cases hab; rfl
    · exact Option.noConfusion hab

theorem sc_call (s t : State) (a : Nat) (h : call s a = some t) :
    t.StackCounter = s.StackCounter + 1 := by
  unfold call at h
  split at h
  · cases h; rfl
  · exact Option.noConfusion h

theorem sc_subroutineReturn (s t : State) (h : subroutineReturn s = some t) :
    t.StackCounter = s.StackCounter - 1 := by
  unfold subroutineReturn at h
  split at h
  · cases h; rfl
  · exact Option.noConfusion h

theorem draw_match_running (o : Option State) (op : Nat) (t : State)
    (h : (match o with
      | some u => Outcome.running (keySkipGroup u op)
      | none => Outcome.undefined) = Outcome.running t) :
    ∃ u, o = some u ∧ t = keySkipGroup u op := by
  cases o with
  | none => exact Outcome.noConfusion h
  | some u => exact ⟨u, rfl, (Outcome.running.inj h).symm⟩

theorem stackMove_ite (s : State) (op : Nat) (c : Prop) [Decidable c] (a b : Outcome)
    (ha : c → StackMove s op a) (hb : ¬ c → StackMove s op b) :
    StackMove s op (if c then a else b) := by
  split
  · rename_i hc; exact ha hc
  · rename_i hc; exact hb hc

theorem stackMove_same (s u : State) (op : Nat) (h : u.StackCounter = s.StackCounter) :
    StackMove s op (Outcome.running u) := by
  intro t ht
  cases Outcome.running.inj ht
  exact Or.inl h

theorem stackMove_exited (s : State) (op n : Nat) : StackMove s op (Outcome.exited n) :=
  fun _ ht => Outcome.noConfusion ht

theorem stackMove_ofOption (s : State) (op : Nat) (o : Option State)
    (h : ∀ t, o = some t → t.StackCounter = s.StackCounter) :
    StackMove s op (Outcome.ofOption o) :=
  fun t ht => Or.inl (h t (ofOption_running o t ht))

/-- The opcode switch changes `StackCounter` only in `call` (one up, on `1NNN`)
and in `subroutineReturn` (one down, on `00EE`). -/
theorem dispatch_StackMove (rnd : Nat) (s : State) (op : Nat) :
    StackMove s op (dispatch rnd s op) := by
  unfold dispatch
  repeat' (intros; apply stackMove_ite)
  · intros
    exact stackMove_exited _ _ _
  · intros
    exact stackMove_same _ _ _ (sc_scrollDownN _ _)
  · intros
    exact stackMove_same _ _ _ rfl
  · intros
    exact fun t ht => Or.inr (Or.inr ⟨⟨by assumption, by assumption, by assumption,
      by assumption⟩, sc_subroutineReturn _ _ (ofOption_running _ _ ht)⟩)
  · intros
    exact stackMove_same _ _ _ rfl
  · intros
    exact stackMove_same _ _ _ rfl
  · intros
    exact stackMove_same _ _ _ (sc_scrollRight _)
  · intros
    exact stackMove_same _ _ _ (sc_scrollLeft _)
  · intros
    exact stackMove_exited _ _ _
  · intros
    exact stackMove_same _ _ _ rfl
  · intros
    exact stackMove_same _ _ _ rfl
  · intros
    exact stackMove_same _ _ _ rfl
  · intros
    exact stackMove_same _ _ _ rfl
  · intros
    exact stackMove_same _ _ _ rfl
  · intros
    exact fun t ht => Or.inr (Or.inl ⟨by assumption, sc_call _ _ _ (ofOption_running _ _ ht)⟩)
  · intros
    exact stackMove_same _ _ _ (sc_skipEqvXvY _ _ _)
  · intros
    exact stackMove_same _ _ _ (sc_skipEqvXValue _ _ _)
  · intros
    exact stackMove_same _ _ _ (sc_skipNevXValue _ _ _)
  · intros
    exact stackMove_same _ _ _ rfl
  · intros
    exact stackMove_same _ _ _ rfl
  · intros
    exact stackMove_same _ _ _ rfl
  · intros
    exact stackMove_same _ _ _ rfl
  · intros
    exact stackMove_same _ _ _ rfl
  · intros
    exact stackMove_same _ _ _ rfl
  · intros
    exact stackMove_same _ _ _ rfl
  · intros
    exact stackMove_same _ _ _ rfl
  · intros
    exact stackMove_same _ _ _ rfl
  · intros
    exact stackMove_same _ _ _ rfl
  · intros
    exact stackMove_same _ _ _ rfl
  · intros
    exact stackMove_same _ _ _ rfl
  · intros
    exact stackMove_same _ _ _ (sc_skipNevXvY _ _ _)
  · intros
    exact stackMove_same _ _ _ rfl
  · intros
    exact stackMove_same _ _ _ rfl
  · intros
    exact stackMove_same _ _ _ rfl
  · intros
    intro t ht
    obtain ⟨u, hu, rfl⟩ := draw_match_running _ _ _ ht
    left
    rw [sc_keySkipGroup]
    split at hu
    · exact sc_drawvXvY _ _ _ _ hu
    · exact sc_drawvXvYRows _ _ _ _ _ hu
  · intros
    exact stackMove_same _ _ _ (sc_keySkipGroup _ _)
  · intros
    exact stackMove_same _ _ _ rfl
  · intros
    exact stackMove_ofOption _ _ _ (fun t ht => sc_loadvXKey _ _ _ ht)
  · intros
    exact stackMove_same _ _ _ rfl
  · intros
    exact stackMove_same _ _ _ rfl
  · intros
    exact stackMove_same _ _ _ rfl
  · intros
    exact stackMove_same _ _ _ rfl
  · intros
    exact stackMove_ofOption _ _ _ (fun t ht => sc_bcdvX _ _ _ ht)
  · intros
    exact stackMove_ofOption _ _ _ (fun t ht => sc_savevX _ _ _ ht)
  · intros
    exact stackMove_ofOption _ _ _ (fun t ht => sc_restorevX _ _ _ ht)
  · intros
    exact stackMove_same _ _ _ rfl
  · intros
    exact stackMove_same _ _ _ rfl

/-- A tick that yields a state fetched an opcode and dispatched it to a state. -/
theorem step_running (rnd : Nat) (s t : State) (h : step rnd s = Outcome.running t) :
    ∃ op u, fetch s = some op ∧ dispatch rnd s op = Outcome.running u ∧ t = advancePC u := by
  cases hf : fetch s with
  | none =>
    simp only [step, hf] at h
    exact Outcome.noConfusion h
  | some op =>
    rw [step_of_fetch rnd s op hf] at h
    cases hd : dispatch rnd s op with
    | running u =>
      rw [hd] at h
      exact ⟨op, u, rfl, hd, (Outcome.running.inj h).symm⟩
    | exited n => rw [hd] at h; exact Outcome.noConfusion h
    | undefined => rw [hd] at h; exact Outcome.noConfusion h

/-- The opcode switch sends `1NNN` to `call(NNN)`. -/
theorem dispatch_1NNN (rnd : Nat) (s : State) (op : Nat) (h1NNN : op / 4096 = 1) :
    dispatch rnd s op = Outcome.ofOption (call s (op % 4096)) := by
  have h1 : op / 4096 % 16 * 4096 = 0x1000 := by omega
  simp [dispatch, and_F000, and_FFF, h1]

/-- The opcode switch sends `00EE` to `subroutineReturn`. -/
theorem dispatch_00EE (rnd : Nat) (s : State) :
    dispatch rnd s 0x00EE = Outcome.ofOption (subroutineReturn s) := by
  simp [dispatch, and_F000, and_F00, and_F0, and_F]

/-- Claim C24 (fails on the code as stated): a call with 32 addresses stacked and a
return with an empty stack should report a fault.  The code checks nothing:
with `StackCounter = 31` the tick on `1300` goes on with `StackCounter = 32`, and
with `StackCounter = -1` the tick on `00EE` goes on with `StackCounter = -2`; both
ticks yield a state of the running loop, outside the range -1..31, and no
fault. -/
theorem step_stack_overflow_unreported :
    fetch { opcodeState 0x13 0x00 with StackCounter := 31 } = some 0x1300
      ∧ (∃ t, step 0 { opcodeState 0x13 0x00 with StackCounter := 31 } = Outcome.running t
          ∧ t.StackCounter = 32)
      ∧ fetch (opcodeState 0x00 0xEE) = some 0x00EE
      ∧ (opcodeState 0x00 0xEE).StackCounter = -1
      ∧ (∃ t, step 0 (opcodeState 0x00 0xEE) = Outcome.running t ∧ t.StackCounter = -2) := by
  refine ⟨by decide, ?_, by decide, by decide, ?_⟩
  · rw [step_of_fetch 0 _ 0x1300 (by decide), dispatch_1NNN 0 _ 0x1300 (by decide)]
    exact ⟨_, rfl, by decide⟩
  · rw [step_of_fetch 0 _ 0x00EE (by decide), dispatch_00EE]
    exact ⟨_, rfl, by decide⟩

/-- Claim C24 as amended: from a state with `StackCounter` in -1..31, a tick that
yields a state yields one with `StackCounter` again in -1..31, unless it is a
call (`1NNN`) with 32 addresses stacked or a return (`00EE`) with an empty stack.
These two are not checked and report no fault: every call yields a state with
the counter one up (32 when 32 addresses were stacked) and every return one
with the counter one down (-2 when the stack was empty). -/
theorem step_StackCounter_range (rnd : Nat) (s : State)
    (hlo : -1 ≤ s.StackCounter) (hhi : s.StackCounter ≤ 31) :
    (∀ op t, fetch s = some op → step rnd s = Outcome.running t →
        ¬ (op / 4096 = 1 ∧ s.StackCounter = 31) → ¬ (op = 0x00EE ∧ s.StackCounter = -1) →
        -1 ≤ t.StackCounter ∧ t.StackCounter ≤ 31)
      ∧ (∀ op, fetch s = some op → op / 4096 = 1 →
          ∃ t, step rnd s = Outcome.running t ∧ t.StackCounter = s.StackCounter + 1)
      ∧ (fetch s = some 0x00EE →
          ∃ t, step rnd s = Outcome.running t ∧ t.StackCounter = s.StackCounter - 1) := by
  refine ⟨?_, ?_, ?_⟩
  · intro op t hop ht hcall hret
    obtain ⟨op2, u, hop2, hd, rfl⟩ := step_running rnd s _ ht
    rw [hop] at hop2
    cases hop2
    have hlt := fetch_lt s op hop
    rw [sc_advancePC]
    rcases dispatch_StackMove rnd s op u hd with h | ⟨h1, h2⟩ | ⟨⟨h1, h3, h4, h5⟩, h2⟩
    · rw [h]; exact ⟨hlo, hhi⟩
    · rw [and_F000] at h1
      have hne : s.StackCounter ≠ 31 := fun h31 => hcall ⟨by omega, h31⟩
      rw [h2]; omega
    · rw [and_F000] at h1
      rw [and_F00] at h3
      rw [and_F0] at h4
      rw [and_F] at h5
      have hne : s.StackCounter ≠ -1 := fun hm => hret ⟨by omega, hm⟩
      rw [h2]; omega
  · intro op hop h1
    have hg : s.StackCounter + 1 < 2 ^ 31 := by omega
    rw [step_of_fetch rnd s op hop, dispatch_1NNN rnd s op h1]
    simp only [call, if_pos hg, Outcome.ofOption]
    exact ⟨_, rfl, by rw [sc_advancePC]⟩
  · intro hop
    have hg : -(2 ^ 31) ≤ s.StackCounter - 1 := by omega
    rw [step_of_fetch rnd s _ hop, dispatch_00EE]
    simp only [subroutineReturn, if_pos hg, Outcome.ofOption]
    exact ⟨_, rfl, by rw [sc_advancePC]⟩

/-- Instance of `step_StackCounter_range`: the call `1300` with 32 addresses stacked
(`StackCounter = 31`) goes on with `StackCounter = 32`. -/
theorem step_StackCounter_range_witness :
    (-1 ≤ ({ opcodeState 0x13 0x00 with StackCounter := 31 } : State).StackCounter
        ∧ ({ opcodeState 0x13 0x00 with StackCounter := 31 } : State).StackCounter ≤ 31)
      ∧ ∃ t, step 0 { opcodeState 0x13 0x00 with StackCounter := 31 } = Outcome.running t
          ∧ t.StackCounter
            = ({ opcodeState 0x13 0x00 with StackCounter := 31 } : State).StackCounter + 1 :=
  ⟨⟨by decide, by decide⟩,
    (step_StackCounter_range 0 { opcodeState 0x13 0x00 with StackCounter := 31 }
      (by decide) (by decide)).2.1 0x1300 (by decide) (by decide)⟩

/-! ## The key wait as an invariant of the loop

The theorems on single ticks above (C20, C22, C23) are stated for the running
state, `WaitingForKeyPress = 0`.  This section shows that nothing is lost: the
machine starts running, and `WaitingForKeyPress` is set only while the opcode at
`ProgramCounter` is an `FX0A`, so every other opcode is executed in the running
state. -/

theorem wk_skipNext (s : State) : (skipNext s).WaitingForKeyPress = s.WaitingForKeyPress := rfl

theorem wk_skipEqvXValue (s : State) (X v : Nat) :
    (skipEqvXValue s X v).WaitingForKeyPress = s.WaitingForKeyPress := by
  unfold skipEqvXValue; split <;> rfl

theorem wk_skipEqvXvY (s : State) (X Y : Nat) :
    (skipEqvXvY s X Y).WaitingForKeyPress = s.WaitingForKeyPress := by
  unfold skipEqvXvY; split <;> rfl

theorem wk_skipNevXValue (s : State) (X v : Nat) :
    (skipNevXValue s X v).WaitingForKeyPress = s.WaitingForKeyPress := by
  unfold skipNevXValue; split <;> rfl

theorem wk_skipNevXvY (s : State) (X Y : Nat) :
    (skipNevXvY s X Y).WaitingForKeyPress = s.WaitingForKeyPress := by
  unfold skipNevXvY; split <;> rfl

theorem wk_skipvXKey (s : State) (X : Nat) :
    (skipvXKey s X).WaitingForKeyPress = s.WaitingForKeyPress := by
  unfold skipvXKey; split <;> rfl

theorem wk_skipNevXKey (s : State) (X : Nat) :
    (skipNevXKey s X).WaitingForKeyPress = s.WaitingForKeyPress := by
  unfold skipNevXKey; split <;> rfl

theorem wk_keySkipGroup (s : State) (op : Nat) :
    (keySkipGroup s op).WaitingForKeyPress = s.WaitingForKeyPress := by
  unfold keySkipGroup
  split
  · exact wk_skipvXKey s _
  · split
    · exact wk_skipNevXKey s _
    · rfl

theorem wk_advancePC (s : State) : (advancePC s).WaitingForKeyPress = s.WaitingForKeyPress := by
  unfold advancePC; split <;> rfl

theorem wk_scrollRight (s : State) : (scrollRight s).WaitingForKeyPress = s.WaitingForKeyPress := by
  unfold scrollRight
  split
  · exact forLoopT_preserves State.WaitingForKeyPress scrollRightHighRow (fun _ _ => rfl) 64 s
  · exact forLoopT_preserves State.WaitingForKeyPress scrollRightLowRow (fun _ _ => rfl) 32 s

theorem wk_scrollLeft (s : State) : (scrollLeft s).WaitingForKeyPress = s.WaitingForKeyPress := by
  unfold scrollLeft
  split
  · exact forLoopT_preserves State.WaitingForKeyPress scrollLeftHighRow (fun _ _ => rfl) 64 s
  · exact forLoopT_preserves State.WaitingForKeyPress scrollLeftLowRow (fun _ _ => rfl) 32 s

theorem wk_scrollDownN (s : State) (n : Nat) :
    (scrollDownN s n).WaitingForKeyPress = s.WaitingForKeyPress := by
  unfold scrollDownN
  split
  · exact forLoopT_preserves State.WaitingForKeyPress (scrollDownHighRow n) (fun _ _ => rfl) (64 - n) s
  · exact forLoopT_preserves State.WaitingForKeyPress (scrollDownLowRow n) (fun _ _ => rfl) (32 - n) s

theorem wk_drawRow (body : Nat → Nat → Nat → State → Option State)
    (hb : body = drawRowLow ∨ body = drawRowHigh ∨ body = xdrawRowLow ∨ body = xdrawRowHigh)
    (x y i : Nat) (s t : State) (h : body x y i s = some t) :
    t.WaitingForKeyPress = s.WaitingForKeyPress := by
  rcases hb with rfl | rfl | rfl | rfl
  · unfold drawRowLow at h
    split at h
    · cases h; rfl
    · exact Option.noConfusion h
  · unfold drawRowHigh at h
    split at h
    · cases h; rfl
    · exact Option.noConfusion h
  · unfold xdrawRowLow at h
    split at h
    · cases h; rfl
    · exact Option.noConfusion h
  · simp only [xdrawRowHigh] at h
    split at h
    · cases h; rfl
    · exact Option.noConfusion h

theorem wk_drawvXvYRows (s t : State) (X Y N : Nat) (h : drawvXvYRows s X Y N = some t) :
    t.WaitingForKeyPress = s.WaitingForKeyPress := by
  unfold drawvXvYRows at h
  split at h
  · exact forLoop_preserves State.WaitingForKeyPress _
      (fun i a b hab => wk_drawRow drawRowHigh (Or.inr (Or.inl rfl)) _ _ i a b hab) _ _ _ h
  · exact forLoop_preserves State.WaitingForKeyPress _
      (fun i a b hab => wk_drawRow drawRowLow (Or.inl rfl) _ _ i a b hab) _ _ _ h

theorem wk_drawvXvY (s t : State) (X Y : Nat) (h : drawvXvY s X Y = some t) :
    t.WaitingForKeyPress = s.WaitingForKeyPress := by
  unfold drawvXvY at h
  split at h
  · exact forLoop_preserves State.WaitingForKeyPress _
      (fun i a b hab => wk_drawRow xdrawRowHigh (Or.inr (Or.inr (Or.inr rfl))) _ _ i a b hab)
      _ _ _ h
  · exact forLoop_preserves State.WaitingForKeyPress _
      (fun i a b hab => wk_drawRow xdrawRowLow (Or.inr (Or.inr (Or.inl rfl))) _ _ i a b hab)
      _ _ _ h

theorem wk_bcdvX (s t : State) (X : Nat) (h : bcdvX s X = some t) :
    t.WaitingForKeyPress = s.WaitingForKeyPress := by
  unfold bcdvX at h
  split at h
  · cases h; rfl
  · exact Option.noConfusion h

theorem wk_advanceI (s : State) (X : Nat) : (advanceI s X).WaitingForKeyPress = s.WaitingForKeyPress := by
  unfold advanceI; split <;> rfl

theorem wk_savevX (s t : State) (X : Nat) (h : savevX s X = some t) :
    t.WaitingForKeyPress = s.WaitingForKeyPress := by
  unfold savevX at h
  cases hm : forLoop saveRow (X + 1) s with
  | none => rw [hm] at h; exact Option.noConfusion h
  | some m =>
    rw [hm] at h
    cases h
    rw [wk_advanceI]
    refine forLoop_preserves State.WaitingForKeyPress _ ?_ _ _ _ hm
    intro i a b hab
    unfold saveRow at hab
    split at hab
    · cases hab; rfl
    · exact Option.noConfusion hab

theorem wk_restorevX (s t : State) (X : Nat) (h : restorevX s X = some t) :
    t.WaitingForKeyPress = s.WaitingForKeyPress := by
  unfold restorevX at h
  cases hm : forLoop restoreRow (X + 1) s with
  | none => rw [hm] at h; exact Option.noConfusion h
  | some m =>
    rw [hm] at h
    cases h
    rw [wk_advanceI]
    refine forLoop_preserves State.WaitingForKeyPress _ ?_ _ _ _ hm
    intro i a b hab
    unfold restoreRow at hab
    split at hab
    · cases hab; rfl
    · exact Option.noConfusion hab

theorem wk_call (s t : State) (a : Nat) (h : call s a = some t) :
    t.WaitingForKeyPress = s.WaitingForKeyPress := by
  unfold call at h
  split at h
  · cases h; rfl
  · exact Option.noConfusion h

theorem wk_subroutineReturn (s t : State) (h : subroutineReturn s = some t) :
    t.WaitingForKeyPress = s.WaitingForKeyPress := by
  unfold subroutineReturn at h
  split at h
  · cases h; rfl
  · exact Option.noConfusion h

theorem waitMove_ite (s : State) (op : Nat) (c : Prop) [Decidable c] (a b : Outcome)
    (ha : c → WaitMove s op a) (hb : ¬ c → WaitMove s op b) :
    WaitMove s op (if c then a else b) := by
  split
  · rename_i hc; exact ha hc
  · rename_i hc; exact hb hc

theorem waitMove_same (s u : State) (op : Nat)
    (h : u.WaitingForKeyPress = s.WaitingForKeyPress) : WaitMove s op (Outcome.running u) := by
  intro t ht
  cases Outcome.running.inj ht
  exact Or.inl h

theorem waitMove_exited (s : State) (op n : Nat) : WaitMove s op (Outcome.exited n) :=
  fun _ ht => Outcome.noConfusion ht

theorem waitMove_ofOption (s : State) (op : Nat) (o : Option State)
    (h : ∀ t, o = some t → t.WaitingForKeyPress = s.WaitingForKeyPress) :
    WaitMove s op (Outcome.ofOption o) :=
  fun t ht => Or.inl (h t (ofOption_running o t ht))

/-- The opcode switch changes `WaitingForKeyPress` only on an opcode `FX0A`. -/
theorem dispatch_WaitMove (rnd : Nat) (s : State) (op : Nat) :
    WaitMove s op (dispatch rnd s op) := by
  unfold dispatch
  repeat' (intros; apply waitMove_ite)
  · intros
    exact waitMove_exited _ _ _
  · intros
    exact waitMove_same _ _ _ (wk_scrollDownN _ _)
  · intros
    exact waitMove_same _ _ _ rfl
  · intros
    exact waitMove_ofOption _ _ _ (fun t ht => wk_subroutineReturn _ _ ht)
  · intros
    exact waitMove_same _ _ _ rfl
  · intros
    exact waitMove_same _ _ _ rfl
  · intros
    exact waitMove_same _ _ _ (wk_scrollRight _)
  · intros
    exact waitMove_same _ _ _ (wk_scrollLeft _)
  · intros
    exact waitMove_exited _ _ _
  · intros
    exact waitMove_same _ _ _ rfl
  · intros
    exact waitMove_same _ _ _ rfl
  · intros
    exact waitMove_same _ _ _ rfl
  · intros
    exact waitMove_same _ _ _ rfl
  · intros
    exact waitMove_same _ _ _ rfl
  · intros
    exact waitMove_ofOption _ _ _ (fun t ht => wk_call _ _ _ ht)
  · intros
    exact waitMove_same _ _ _ (wk_skipEqvXvY _ _ _)
  · intros
    exact waitMove_same _ _ _ (wk_skipEqvXValue _ _ _)
  · intros
    exact waitMove_same _ _ _ (wk_skipNevXValue _ _ _)
  · intros
    exact waitMove_same _ _ _ rfl
  · intros
    exact waitMove_same _ _ _ rfl
  · intros
    exact waitMove_same _ _ _ rfl
  · intros
    exact waitMove_same _ _ _ rfl
  · intros
    exact waitMove_same _ _ _ rfl
  · intros
    exact waitMove_same _ _ _ rfl
  · intros
    exact waitMove_same _ _ _ rfl
  · intros
    exact waitMove_same _ _ _ rfl
  · intros
    exact waitMove_same _ _ _ rfl
  · intros
    exact waitMove_same _ _ _ rfl
  · intros
    exact waitMove_same _ _ _ rfl
  · intros
    exact waitMove_same _ _ _ rfl
  · intros
    exact waitMove_same _ _ _ (wk_skipNevXvY _ _ _)
  · intros
    exact waitMove_same _ _ _ rfl
  · intros
    exact waitMove_same _ _ _ rfl
  · intros
    exact waitMove_same _ _ _ rfl
  · intros
    intro t ht
    obtain ⟨u, hu, rfl⟩ := draw_match_running _ _ _ ht
    left
    rw [wk_keySkipGroup]
    split at hu
    · exact wk_drawvXvY _ _ _ _ hu
    · exact wk_drawvXvYRows _ _ _ _ _ hu
  · intros
    exact waitMove_same _ _ _ (wk_keySkipGroup _ _)
  · intros
    exact waitMove_same _ _ _ rfl
  · intros
    exact fun t ht => Or.inr ⟨by assumption, by assumption⟩
  · intros
    exact waitMove_same _ _ _ rfl
  · intros
    exact waitMove_same _ _ _ rfl
  · intros
    exact waitMove_same _ _ _ rfl
  · intros
    exact waitMove_same _ _ _ rfl
  · intros
    exact waitMove_ofOption _ _ _ (fun t ht => wk_bcdvX _ _ _ ht)
  · intros
    exact waitMove_ofOption _ _ _ (fun t ht => wk_savevX _ _ _ ht)
  · intros
    exact waitMove_ofOption _ _ _ (fun t ht => wk_restorevX _ _ _ ht)
  · intros
    exact waitMove_same _ _ _ rfl
  · intros
    exact waitMove_same _ _ _ rfl

/-- The opcode switch sends every opcode with high nibble F and low byte `0A` to
`loadvXKey`. -/
theorem dispatch_load_key (rnd : Nat) (s : State) (op : Nat) (h1 : op &&& 0xF000 = 0xF000)
    (h2 : op &&& 0xFF = 0x0A) :
    dispatch rnd s op = Outcome.ofOption (loadvXKey s (opX op)) := by
  simp [dispatch, h1, h2]

/-- The machine starts in the running state. -/
theorem initialState_WaitsAtLoad (rom : List Nat) : WaitsAtLoad (initialState rom) :=
  fun h => absurd rfl h

/-- A tick keeps the invariant of the key wait: `WaitingForKeyPress` is set only
by an `FX0A`, which leaves `ProgramCounter` at itself. -/
theorem step_WaitsAtLoad (rnd : Nat) (s t : State) (hinv : WaitsAtLoad s)
    (h : step rnd s = Outcome.running t) : WaitsAtLoad t := by
  intro hw
  obtain ⟨op, u, hop, hd, rfl⟩ := step_running rnd s t h
  rw [wk_advancePC] at hw
  have hlt := fetch_lt s op hop
  have hmask : op &&& 0xF000 = 0xF000 ∧ op &&& 0xFF = 0x0A := by
    by_cases hs : s.WaitingForKeyPress = 0
    · rcases dispatch_WaitMove rnd s op u hd with h1 | h1
      · rw [h1] at hw
        exact absurd hs hw
      · exact h1
    · obtain ⟨op2, hop2, hF, hA⟩ := hinv hs
      rw [hop] at hop2
      cases hop2
      rw [and_F000, and_FF]
      omega
  rw [dispatch_load_key rnd s op hmask.1 hmask.2] at hd
  have hl := ofOption_running _ _ hd
  unfold loadvXKey at hl
  have hu : u = { s with WaitingForKeyPress := 1 } := by
    split at hl
    · cases hl; rfl
    · split at hl
      · exact Option.noConfusion hl
      · cases hl
        exact absurd rfl hw
  subst hu
  refine ⟨op, ?_, ?_, ?_⟩
  · rw [← hop]
    rfl
  · have := hmask.1
    rw [and_F000] at this
    omega
  · have := hmask.2
    rw [and_FF] at this
    exact this

/-- The fetch reads `Memory` and `ProgramCounter` only. -/
theorem fetch_congr (a b : State) (hM : a.Memory = b.Memory)
    (hP : a.ProgramCounter = b.ProgramCounter) : fetch a = fetch b := by
  unfold fetch
  rw [hM, hP]

/-- The timer update changes `Time` and `Tone` only. -/
theorem updateTimers_frame (s : State) :
    (updateTimers s).WaitingForKeyPress = s.WaitingForKeyPress
      ∧ (updateTimers s).Memory = s.Memory
      ∧ (updateTimers s).ProgramCounter = s.ProgramCounter := by
  unfold updateTimers
  by_cases h0 : s.WaitingForKeyPress = 0
  · rw [if_pos h0]
    by_cases h1 : s.Time > 0
    · simp only [h1, if_true]
      split <;> exact ⟨rfl, rfl, rfl⟩
    · simp only [h1, if_false]
      split <;> exact ⟨rfl, rfl, rfl⟩
  · rw [if_neg h0]
    exact ⟨rfl, rfl, rfl⟩

/-- The once-per-frame key refresh and timer update keep the invariant of the
key wait. -/
theorem frame_WaitsAtLoad (down : Nat → Bool) (s : State) (hinv : WaitsAtLoad s) :
    WaitsAtLoad (updateTimers (refreshKeys down s)) := by
  obtain ⟨hW, hM, hP⟩ := updateTimers_frame (refreshKeys down s)
  intro hw
  rw [hW] at hw
  obtain ⟨op, hop, hF, hA⟩ := hinv hw
  refine ⟨op, ?_, hF, hA⟩
  rw [fetch_congr _ s hM hP]
  exact hop

/-- Under the invariant of the key wait, an opcode other than `FX0A` is only
ever fetched in the running state. -/
theorem running_of_WaitsAtLoad (s : State) (op : Nat) (hinv : WaitsAtLoad s)
    (hop : fetch s = some op) (hne : op / 4096 ≠ 0xF ∨ op % 256 ≠ 0x0A) :
    s.WaitingForKeyPress = 0 := by
  by_contra hw
  obtain ⟨op2, hop2, hF, hA⟩ := hinv hw
  rw [hop] at hop2
  cases hop2
  omega

/-! ## Resolution switch (C25) -/

/-- Claim C25: `displayBufferHigh` followed by `displayBufferLow` changes nothing but
`DisplayIsHigh`, which ends at 0: the display storage, the registers, the
memory and every other field are as before; from low resolution the state is
back exactly. -/
theorem displayBufferHigh_then_Low (s : State) :
    displayBufferLow (displayBufferHigh s) = { s with DisplayIsHigh := 0 }
      ∧ (displayBufferLow (displayBufferHigh s)).DisplayBuffer = s.DisplayBuffer
      ∧ (displayBufferLow (displayBufferHigh s)).DisplayIsHigh = 0
      ∧ (displayBufferLow (displayBufferHigh s)).V = s.V
      ∧ (displayBufferLow (displayBufferHigh s)).Memory = s.Memory
      ∧ (s.DisplayIsHigh = 0 → displayBufferLow (displayBufferHigh s) = s) := by
  refine ⟨rfl, rfl, rfl, rfl, rfl, ?_⟩
  intro h
  cases s
  simp only [displayBufferLow, displayBufferHigh] at h ⊢
  rw [h]

/-! ## High-resolution sprite drawing, 8 pixels wide (C26) -/

/-- In high resolution `drawvXvYRows` never looks at its row count: the loop
bound is `y`. -/
theorem drawvXvYRows_high_ignores_rows (s : State) (X Y N M : Nat)
    (hhigh : s.DisplayIsHigh ≠ 0) : drawvXvYRows s X Y N = drawvXvYRows s X Y M := by
  simp only [drawvXvYRows, if_pos hhigh]

/-- In high resolution `drawvXvYRows` never writes the right half. -/
theorem drawvXvYRows_high_right_half (s t : State) (X Y N : Nat)
    (hhigh : s.DisplayIsHigh ≠ 0) (h : drawvXvYRows s X Y N = some t) (i : Nat) :
    t.DisplayBuffer (highIdx 1 i) = s.DisplayBuffer (highIdx 1 i) := by
  simp only [drawvXvYRows, if_pos hhigh] at h
  refine forLoop_preserves (fun u => u.DisplayBuffer (highIdx 1 i)) _ ?_ _ _ _ h
  intro j a b hab
  unfold drawRowHigh at hab
  split at hab
  · rename_i hg
    cases hab
    have hne : ¬ (64 * 1 + i = 64 * 0 + (s.V Y + j)) := by omega
    simp only [write, highIdx, hne, if_false]
  · exact Option.noConfusion hab

/-- Claim C26 (fails on the code): in high resolution with `x = 60` the sprite byte
`0xFF` should put `0xFF >> 4 = 0x0F` into the left half and its low nibble, from
column 0, into the right half (`0xF000000000000000`), for each of the `N` rows.
With `y = 1`, `N = 2` the code processes one row only (its loop bound is `y`) and
XORs both parts into the left half: `High[0][1] = 0xF00000000000000F`,
`High[1][1] = 0`, row 2 untouched.  With `y = 0` it draws nothing at all. -/
theorem drawvXvYRows_high_wrong_rows_and_half :
    0xFF >>> (60 - 56) = 0x0F
      ∧ (0xFF <<< (120 - 60)) % 2 ^ 64 = 0xF000000000000000
      ∧ (drawvXvYRows (highSpriteState 60 1 0xFF 0xFF) 0 1 2).map
          (fun t => (t.DisplayBuffer (highIdx 0 1), t.DisplayBuffer (highIdx 1 1),
            t.DisplayBuffer (highIdx 0 2), t.DisplayBuffer (highIdx 1 2)))
          = some (0xF00000000000000F, 0, 0, 0)
      ∧ (drawvXvYRows (highSpriteState 60 0 0xFF 0xFF) 0 1 2).map
          (fun t => (t.DisplayBuffer (highIdx 0 0), t.DisplayBuffer (highIdx 1 0),
            t.DisplayBuffer (highIdx 0 1), t.DisplayBuffer (highIdx 1 1)))
          = some (0, 0, 0, 0) := by
  decide

/-! ## Low-resolution sprite drawing, 16 pixels wide (C27) -/

/-- Loop invariant of the low-resolution loop of `drawvXvY`. -/
theorem xdrawRowLow_loop (x y : Nat) (s : State) (hx : x ≤ 56) :
    ∀ n, s.I + 2 * n ≤ 4096 → y + n ≤ 32 →
      ∃ t, forLoop (xdrawRowLow x y) n s = some t
        ∧ t.Memory = s.Memory ∧ t.I = s.I
        ∧ (∀ k, t.DisplayBuffer k =
            if y ≤ k ∧ k < y + n then (s.DisplayBuffer k ^^^ xlowLine s x (k - y)) % 2 ^ 64
            else s.DisplayBuffer k) := by
  intro n
  induction n with
  | zero =>
    intro _ _
    refine ⟨s, rfl, rfl, rfl, fun k => ?_⟩
    have : ¬ (y ≤ k ∧ k < y + 0) := by omega
    rw [if_neg this]
  | succ n ih =>
    intro hI hy
    obtain ⟨s1, hrun, hM, hIeq, hD⟩ := ih (by omega) (by omega)
    have hguard : s1.I + 2 * n + 1 < 4096 ∧ y + n < 32 ∧ x ≤ 56 := by
      rw [hIeq]; omega
    rw [forLoop_succ, hrun, Option.some_bind]
    simp only [xdrawRowLow, if_pos hguard]
    refine ⟨_, rfl, hM, hIeq, ?_⟩
    intro k
    simp only [write, lowIdx]
    by_cases hk : k = y + n
    · subst hk
      have h1 : y ≤ y + n ∧ y + n < y + (n + 1) := by omega
      have h2 : ¬ (y ≤ y + n ∧ y + n < y + n) := by omega
      rw [if_pos rfl, if_pos h1, hD (y + n), if_neg h2, hM, hIeq]
      simp [xlowLine]
    · rw [if_neg hk, hD k]
      by_cases hr : y ≤ k ∧ k < y + n
      · have hr2 : y ≤ k ∧ k < y + (n + 1) := by omega
        rw [if_pos hr, if_pos hr2]
      · have hr2 : ¬ (y ≤ k ∧ k < y + (n + 1)) := by omega
        rw [if_neg hr, if_neg hr2]

/-- Low-resolution `drawvXvY` in closed form: row `y + i` is XORed with
`(Memory[I + 2i] << 8) | (Memory[I + 2i + 1] << (56 - x))`, not with the 16-bit
sprite row shifted to column `x`. -/
theorem drawvXvY_low (s : State) (X Y : Nat) (hlow : s.DisplayIsHigh = 0)
    (hx : s.V X ≤ 56) (hy : s.V Y ≤ 16) (hI : s.I + 32 ≤ 4096) :
    ∃ t, drawvXvY s X Y = some t
      ∧ ∀ i, i < 16 → t.DisplayBuffer (lowIdx (s.V Y + i))
          = (s.DisplayBuffer (lowIdx (s.V Y + i)) ^^^ xlowLine s (s.V X) i) % 2 ^ 64 := by
  obtain ⟨t, ht, _, _, hD⟩ := xdrawRowLow_loop (s.V X) (s.V Y) s hx 16 (by omega) (by omega)
  refine ⟨t, by simpa [drawvXvY, hlow] using ht, ?_⟩
  intro i hi
  have hr : s.V Y ≤ s.V Y + i ∧ s.V Y + i < s.V Y + 16 := by omega
  rw [lowIdx, hD, if_pos hr, Nat.add_sub_cancel_left]

/-- Claim C27 (fails on the code): in low resolution `drawvXvY` should XOR the 16-bit
sprite row, shifted to column `x`, into the display row.  With sprite bytes
`0x12`, `0x34` at `(0, 0)` the claim gives `Low[0] = 0x1234000000000000`; the code
gives `0x3400000000001200`, because in
`(... << 8) | (...) << (56 - x)` the shift binds only the second byte. -/
theorem drawvXvY_low_line_misplaced :
    ((0x12 <<< 8 ||| 0x34) <<< (48 - 0)) = 0x1234000000000000
      ∧ (drawvXvY (spriteState 0 0 0x12 0x34) 0 1).map
          (fun t => (t.DisplayBuffer (lowIdx 0), t.DisplayBuffer (lowIdx 1)))
          = some (0x3400000000001200, 0) := by
  decide

/-! ## Binary-coded decimal (C28) -/

/-- The three stores of `bcdvX`. -/
theorem bcdvX_eq (s : State) (X : Nat) (hg : s.I + 2 < 4096) :
    bcdvX s X = some { s with
      Memory := write (write (write s.Memory s.I (s.V X / 100 % 256))
        (s.I + 1) (s.V X % 100 / 10 % 256)) (s.I + 2) (s.V X % 10 % 256) } := by
  rw [bcdvX, if_pos hg]

/-- Claim C28: for registers that hold bytes and `I <= 4093`, `bcdvX(X)` is defined,
`Memory[I]`, `Memory[I+1]`, `Memory[I+2]` are each at most 9 and
`100 * Memory[I] + 10 * Memory[I+1] + Memory[I+2] = V[X]`; every other memory byte,
every register and every other field are unchanged. -/
theorem bcdvX_spec (s : State) (X : Nat) (hV : RegsAreBytes s) (hI : s.I ≤ 4093) :
    ∃ t, bcdvX s X = some t
      ∧ t.Memory s.I ≤ 9 ∧ t.Memory (s.I + 1) ≤ 9 ∧ t.Memory (s.I + 2) ≤ 9
      ∧ 100 * t.Memory s.I + 10 * t.Memory (s.I + 1) + t.Memory (s.I + 2) = s.V X
      ∧ (∀ a, a ≠ s.I → a ≠ s.I + 1 → a ≠ s.I + 2 → t.Memory a = s.Memory a)
      ∧ t.V = s.V
      ∧ t = { s with Memory := t.Memory } := by
  have hx := hV X
  have hg : s.I + 2 < 4096 := by omega
  have n1 : ¬ (s.I = s.I + 1) := by omega
  have n2 : ¬ (s.I = s.I + 2) := by omega
  have n3 : ¬ (s.I + 1 = s.I + 2) := by omega
  have e1 : s.V X / 100 % 256 = s.V X / 100 := by omega
  have e2 : s.V X % 100 / 10 % 256 = s.V X % 100 / 10 := by omega
  have e3 : s.V X % 10 % 256 = s.V X % 10 := by omega
  refine ⟨_, bcdvX_eq s X hg, ?_, ?_, ?_, ?_, ?_, rfl, rfl⟩
  · simp only [write, if_true, n1, n2, if_false, e1]; omega
  · simp only [write, if_true, n3, if_false, e2]; omega
  · simp only [write, if_true, e3]; omega
  · simp only [write, if_true, n1, n2, n3, if_false, e1, e2, e3]; omega
  · intro a h0 h1 h2
    simp only [write, h0, h1, h2, if_false]

/-- Instance of `bcdvX_spec`: `V[0] = 234` is stored as 2, 3, 4. -/
theorem bcdvX_spec_witness :
    (RegsAreBytes (regState 234 0 0) ∧ (regState 234 0 0).I ≤ 4093)
      ∧ ∃ t, bcdvX (regState 234 0 0) 0 = some t
        ∧ t.Memory (regState 234 0 0).I ≤ 9 ∧ t.Memory ((regState 234 0 0).I + 1) ≤ 9
        ∧ t.Memory ((regState 234 0 0).I + 2) ≤ 9
        ∧ 100 * t.Memory (regState 234 0 0).I + 10 * t.Memory ((regState 234 0 0).I + 1)
            + t.Memory ((regState 234 0 0).I + 2) = 234
        ∧ (∀ a, a ≠ (regState 234 0 0).I → a ≠ (regState 234 0 0).I + 1 →
            a ≠ (regState 234 0 0).I + 2 → t.Memory a = (regState 234 0 0).Memory a)
        ∧ t.V = (regState 234 0 0).V
        ∧ t = { regState 234 0 0 with Memory := t.Memory } :=
  ⟨⟨regState_bytes 234 0 0 (by decide) (by decide) (by decide), by decide⟩,
    bcdvX_spec (regState 234 0 0) 0
      (regState_bytes 234 0 0 (by decide) (by decide) (by decide)) (by decide)⟩

/-! ## Hex digit glyphs (C29) -/

/-- The font area of the initial memory does not depend on the program. -/
theorem initialMemory_font (rom : List Nat) (a : Nat) (h : a < 0x100) :
    initialMemory rom a = initialMemory [] a := by
  unfold initialMemory
  rw [if_pos h, if_pos h]

/-- For every program and every value of `V[X]`, `hexvX` in the initialised
memory sets `I = 16 * d` with `d = V[X] & 0xF`, and the five bytes at `I` have a
zero low nibble. -/
theorem hexvX_points_at_glyph (rom : List Nat) (s : State) (X : Nat)
    (hM : s.Memory = initialMemory rom) :
    (hexvX s X).I = 16 * (s.V X % 16)
      ∧ ∀ j, j < 5 → (hexvX s X).Memory ((hexvX s X).I + j) % 16 = 0 := by
  have hI : (hexvX s X).I = 16 * (s.V X % 16) := by
    simp only [hexvX, and_F, Nat.shiftLeft_eq]
    omega
  refine ⟨hI, ?_⟩
  intro j hj
  rw [hI]
  show s.Memory (16 * (s.V X % 16) + j) % 16 = 0
  have hd : s.V X % 16 < 16 := Nat.mod_lt _ (by decide)
  rw [hM, initialMemory_font rom _ (by omega)]
  generalize s.V X % 16 = d at hd
  interval_cases d <;> interval_cases j <;> decide

/-- Claim C29 (fails on the code for the digit A): with `V[0] = 0x0A`, `hexvX(0)` sets
`I = 0xA0` as claimed, but the five bytes there are `F0 90 A0 90 90`: the third
row is `0xA0` (`# # `) where the glyph pictured in the source, and the claim,
have `####` (`0xF0`). -/
theorem hexvX_glyph_A_row_differs :
    (hexvX { initialState [] with V := write clearedState.V 0 0x0A } 0).I = 0xA0
      ∧ (initialState []).Memory 0xA0 = 0xF0
      ∧ (initialState []).Memory 0xA1 = 0x90
      ∧ (initialState []).Memory 0xA2 = 0xA0
      ∧ (initialState []).Memory 0xA3 = 0x90
      ∧ (initialState []).Memory 0xA4 = 0x90 := by
  decide

/-! ## Termination of the key search (C30) -/

/-- A 16-bit mask has no bit at position 16 or above. -/
theorem and_bit_of_lt (m k : Nat) (hm : m < 2 ^ 16) (hk : 16 ≤ k) : m &&& (1 <<< k) = 0 := by
  apply Nat.eq_of_testBit_eq
  intro i
  rw [Nat.testBit_and, Nat.zero_testBit, Nat.shiftLeft_eq, Nat.one_mul, Nat.testBit_two_pow]
  by_cases hik : k = i
  · subst hik
    have : m.testBit k = false := by
      apply Nat.testBit_lt_two_pow
      calc m < 2 ^ 16 := hm
        _ ≤ 2 ^ k := Nat.pow_le_pow_right (by decide) hk
    simp [this]
  · simp [hik]

/-- On a 16-bit mask the search loop started at `k <= 16` ends at a value between
`k` and 16 as soon as 17 values of `lowestKey` are available. -/
theorem keyScan_terminates (m : Nat) (hm : m < 2 ^ 16) :
    ∀ room k, k ≤ 16 → 16 < k + room →
      ∃ v, keyScan m room k = some v ∧ k ≤ v ∧ v ≤ 16 := by
  intro room
  induction room with
  | zero => intro k hk hr; omega
  | succ room ih =>
    intro k hk hr
    by_cases hbit : m &&& (1 <<< k) ≠ 0
    · have hk16 : k < 16 := by
        by_contra hc
        exact hbit (and_bit_of_lt m k hm (by omega))
      obtain ⟨v, hv, h1, h2⟩ := ih (k + 1) (by omega) (by omega)
      refine ⟨v, ?_, by omega, h2⟩
      rw [keyScan, if_pos hbit, hv]
    · exact ⟨k, by rw [keyScan, if_neg hbit], le_refl _, hk⟩

/-- More room does not change the result of a search that ends. -/
theorem keyScan_more_room (m : Nat) :
    ∀ room k v, keyScan m room k = some v → ∀ extra, keyScan m (room + extra) k = some v := by
  intro room
  induction room with
  | zero => intro k v h; exact Option.noConfusion h
  | succ room ih =>
    intro k v h extra
    rw [show room + 1 + extra = (room + extra) + 1 by omega, keyScan]
    rw [keyScan] at h
    by_cases hbit : m &&& (1 <<< k) ≠ 0
    · rw [if_pos hbit] at h ⊢
      exact ih (k + 1) v h extra
    · rw [if_neg hbit] at h ⊢
      exact h

/-- Claim C30: for every 16-bit `Keys` with `Keys & KeyMask` non-zero, the search loop
of `loadvXKey` ends within 17 tests of its condition, that is after at most 16
executions of `++lowestKey`, and the value `loadvXKey` writes into `V[X]` is the
final `lowestKey`, at most 16. -/
theorem loadvXKey_search_bounded (s : State) (X : Nat) (hK : s.Keys < 2 ^ 16)
    (hne : s.Keys &&& s.KeyMask ≠ 0) :
    ∃ k t, keyScan (s.Keys &&& s.KeyMask) 17 0 = some k ∧ k ≤ 16
      ∧ loadvXKey s X = some t ∧ t.V X = k := by
  have hm : s.Keys &&& s.KeyMask < 2 ^ 16 :=
    lt_of_le_of_lt Nat.and_le_left hK
  obtain ⟨k, hk, _, hk16⟩ := keyScan_terminates _ hm 17 0 (by omega) (by omega)
  have h31 : keyScan (s.Keys &&& s.KeyMask) 31 0 = some k :=
    keyScan_more_room _ 17 0 k hk 14
  have hload : loadvXKey s X = some { s with
      WaitingForKeyPress := 0
      V := write s.V X (k % 256)
      KeyMask := (s.KeyMask &&& (0xFFFFFFFF ^^^ (1 <<< k))) % 65536 } := by
    unfold loadvXKey
    rw [if_neg hne, h31]
  refine ⟨k, _, hk, hk16, hload, ?_⟩
  simp only [write, if_true]
  omega

/-- Instance of `loadvXKey_search_bounded` with all sixteen keys qualifying: the
loop ends at `lowestKey = 16`. -/
theorem loadvXKey_search_bounded_witness :
    (({ regState 9 0 0 with Keys := 0xFFFF } : State).Keys < 2 ^ 16
        ∧ ({ regState 9 0 0 with Keys := 0xFFFF } : State).Keys
            &&& ({ regState 9 0 0 with Keys := 0xFFFF } : State).KeyMask ≠ 0)
      ∧ keyScan 0xFFFF 17 0 = some 16
      ∧ ∃ k t, keyScan (({ regState 9 0 0 with Keys := 0xFFFF } : State).Keys
            &&& ({ regState 9 0 0 with Keys := 0xFFFF } : State).KeyMask) 17 0 = some k
          ∧ k ≤ 16
          ∧ loadvXKey { regState 9 0 0 with Keys := 0xFFFF } 0 = some t ∧ t.V 0 = k :=
  ⟨⟨by decide, by decide⟩, by decide,
    loadvXKey_search_bounded { regState 9 0 0 with Keys := 0xFFFF } 0 (by decide) (by decide)⟩

end Chip8
